import Mathlib

/-!
Verification development for the `news_hivee` news pipeline.

Python strings are modelled as lists of Unicode code points (`PyStr`).
Python dictionaries are modelled as insertion-ordered association lists,
matching CPython's insertion-ordered `dict` semantics.  Python `set`
objects expose an unspecified iteration order, so `list(set)` results are
canonicalised with `List.dedup`, which preserves membership and
cardinality.  Numeric weights are modelled as exact rationals.
-/

/-- Code points of a Lean string literal, used to transcribe the string
literals appearing in the Python source. -/
def String.codes (s : String) : List Nat := s.toList.map Char.toNat

namespace NewsHive

/-- A Python string: the list of its Unicode code points. -/
abbrev PyStr := List Nat

/-- Whitespace code points recognised by `str.strip`, `str.split` and
`str.isspace` (the ASCII whitespace class, which covers every character
this repository manipulates): tab, LF, VT, FF, CR, space. -/
def isPyWs (c : Nat) : Bool := c = 32 || c = 9 || c = 10 || c = 11 || c = 12 || c = 13

/-- `str.lower` on one code point, for the character ranges this repository
manipulates: ASCII `A`–`Z` and Cyrillic `А`–`Я`/`Ё`; all other code points
are fixed. -/
def pyLowerChar (c : Nat) : Nat :=
  if 65 ≤ c ∧ c ≤ 90 then c + 32
  else if 1040 ≤ c ∧ c ≤ 1071 then c + 32
  else if c = 1025 then 1105
  else c

/-- `str.upper` on one code point (same ranges as `pyLowerChar`). -/
def pyUpperChar (c : Nat) : Nat :=
  if 97 ≤ c ∧ c ≤ 122 then c - 32
  else if 1072 ≤ c ∧ c ≤ 1103 then c - 32
  else if c = 1105 then 1025
  else c

/-- `str.lower`. -/
def pyLowerStr (s : PyStr) : PyStr := s.map pyLowerChar

/-- `str.strip()` with no argument: remove leading and trailing whitespace. -/
def pyStrip (s : PyStr) : PyStr :=
  ((s.dropWhile isPyWs).reverse.dropWhile isPyWs).reverse

/-- Python `needle in hay` on strings: substring containment. -/
def hasSub (needle hay : PyStr) : Bool :=
  match hay with
  | [] => needle = []
  | _ :: t => needle.isPrefixOf hay || hasSub needle t

/-- Python `s.startswith(p)`. -/
def pyStartsWith (p s : PyStr) : Bool := p.isPrefixOf s

/-- Python `str.split()` with no argument: split on whitespace runs,
dropping empty tokens.  `acc` holds the current token reversed. -/
def splitWsGo (acc : PyStr) : PyStr → List PyStr
  | [] => if acc = [] then [] else [acc.reverse]
  | c :: rest =>
    if isPyWs c then
      if acc = [] then splitWsGo [] rest else acc.reverse :: splitWsGo [] rest
    else splitWsGo (c :: acc) rest

/-- Python `str.split()` with no argument. -/
def pySplitWs (s : PyStr) : List PyStr := splitWsGo [] s

/-- Python dictionary lookup `d.get(k)` on an insertion-ordered
association list. -/
def dget {κ α : Type} [DecidableEq κ] (d : List (κ × α)) (k : κ) : Option α :=
  match d with
  | [] => none
  | (k', v) :: rest => if k = k' then some v else dget rest k

/-- Python dictionary assignment `d[k] = v`: update in place if the key is
present, otherwise append (CPython dicts are insertion ordered). -/
def dset {κ α : Type} [DecidableEq κ] (d : List (κ × α)) (k : κ) (v : α) :
    List (κ × α) :=
  match d with
  | [] => [(k, v)]
  | (k', v') :: rest => if k = k' then (k', v) :: rest else (k', v') :: dset rest k v

/-- Python `list(d.keys())`. -/
def dkeys {κ α : Type} (d : List (κ × α)) : List κ := d.map Prod.fst

/-! ## Tag Agent (`src/agents/tags_agent.py`, `SemanticTaggingAgent`) -/

/-- The `fruit_contexts` keyword list of `_contextual_disambiguation`. -/
def fruitContexts : List PyStr :=
  [("fruit").codes, ("food").codes, ("eat").codes, ("healthy").codes,
   ("vitamin").codes, ("diet").codes, ("orchard").codes, ("tree").codes,
   ("sweet").codes]

/-- The `company_contexts` keyword list of `_contextual_disambiguation`. -/
def companyContexts : List PyStr :=
  [("company").codes, ("tech").codes, ("stock").codes, ("iphone").codes,
   ("mac").codes, ("store").codes, ("inc").codes, ("revenue").codes,
   ("ceo").codes]

/-- Replace spaces by underscores (`.replace(" ", "_")`). -/
def spaceToUnderscore (s : PyStr) : PyStr := s.map fun c => if c = 32 then 95 else c

/-- `SemanticTaggingAgent._contextual_disambiguation` (metrics bookkeeping
omitted; it does not affect the returned tag). -/
def contextualDisambiguation (word content : PyStr) : PyStr :=
  let wordLower := pyLowerStr word
  let contextLower := pyLowerStr content
  let fruitMatches := fruitContexts.countP fun t => hasSub t contextLower
  let companyMatches := companyContexts.countP fun t => hasSub t contextLower
  if fruitMatches < companyMatches then ("apple_inc").codes
  else if companyMatches < fruitMatches then ("фрукты").codes
  else spaceToUnderscore wordLower

/-- The `parent_tags` hierarchy set up in `SemanticTaggingAgent.__init__`. -/
def parentTags : List (PyStr × PyStr) :=
  [(("llm").codes, ("искусственный_интеллект").codes),
   (("нейросеть").codes, ("искусственный_интеллект").codes),
   (("искусственный_интеллект").codes, ("технологии").codes),
   (("стартап").codes, ("бизнес").codes),
   (("венчур").codes, ("бизнес").codes),
   (("инвестиции").codes, ("бизнес").codes),
   (("криптовалюта").codes, ("финансы").codes),
   (("блокчейн").codes, ("технологии").codes),
   (("data_science").codes, ("наука").codes),
   (("machine_learning").codes, ("искусственный_интеллект").codes),
   (("deep_learning").codes, ("искусственный_интеллект").codes)]

/-- `SemanticTaggingAgent._add_parent_tags`.  The source builds
`set(tags)`, adds each tag's parent, and returns `list(all_tags)`; the
set's iteration order is unspecified, so the result is canonicalised by
`List.dedup`, which has the same members and the same length. -/
def addParentTags (tags : List PyStr) : List PyStr :=
  (tags ++ tags.filterMap fun t => dget parentTags t).dedup

/-- `SemanticTaggingAgent._normalize_and_limit_tags` with `max_tags`
explicit (the source defaults it to 5). -/
def normalizeAndLimitTags (tags : List PyStr) (maxTags : Nat) : List PyStr :=
  let normalized := (tags.filter fun t => pyStrip t ≠ []).map fun t =>
    spaceToUnderscore (pyLowerStr (pyStrip t))
  (normalized.filter fun t => t ≠ []).take maxTags

/-- The `semantic_pairs` table of
`SemanticTaggingAgent._has_semantic_connection`. -/
def semanticPairs : List (PyStr × List PyStr) :=
  [(("искусственный_интеллект").codes,
    [("ai").codes, ("мозг").codes, ("нейросеть").codes, ("интеллект").codes]),
   (("бизнес").codes,
    [("компания").codes, ("деньги").codes, ("прибыль").codes, ("рынок").codes]),
   (("технологии").codes,
    [("компьютер").codes, ("интернет").codes, ("программа").codes,
     ("инновации").codes])]

/-- `SemanticTaggingAgent._has_semantic_connection` (arguments already
lowercased by the caller, as in the source). -/
def hasSemanticConnection (content tag : PyStr) : Bool :=
  let contentWords := pySplitWs content
  let tagWords := pySplitWs tag
  if contentWords.any fun w => tagWords.any fun w' => w = w' then true
  else semanticPairs.any fun p =>
    decide (p.1 = tag) && p.2.any fun term => hasSub term content

/-- `SemanticTaggingAgent._validate_via_embeddings` (metrics and logging
omitted; they do not affect the returned list). -/
def validateViaEmbeddings (content : PyStr) (tags : List PyStr) : List PyStr :=
  let contentLower := pyLowerStr content
  tags.filter fun tag =>
    let tagNormalized := pyLowerStr (tag.map fun c => if c = 95 then 32 else c)
    hasSub tagNormalized contentLower || hasSemanticConnection contentLower tagNormalized

/-- The tag-list computation of
`SemanticTaggingAgent.generate_tags_with_enhancements` on the LLM-success
path (lines 260–279): the parsed `tags` field plus any caller-provided
`user_tags` are normalised and limited to 5, disambiguated against the
summary, extended with parent tags, and validated against the summary. -/
def llmSuccessTags (llmTags userTags : List PyStr) (summary : PyStr) : List PyStr :=
  let suggested := llmTags ++ userTags
  let normalized := normalizeAndLimitTags suggested 5
  let disambiguated := normalized.map fun t => contextualDisambiguation t summary
  let withParents := addParentTags disambiguated
  validateViaEmbeddings summary withParents

/-- The pattern `^[a-z0-9_]+$`: nonempty, and every code point is an ASCII
lowercase letter, an ASCII digit, or the underscore. -/
def matchesTagPattern (t : PyStr) : Bool :=
  decide (t ≠ []) && t.all fun c => (97 ≤ c && c ≤ 122) || (48 ≤ c && c ≤ 57) || c = 95

/-- An ASCII uppercase letter. -/
def isAsciiUpper (c : Nat) : Bool := 65 ≤ c && c ≤ 90

/-! ### Supporting lemmas for the Tag Agent claims -/

/-- Lowercasing never produces an ASCII uppercase letter. -/
lemma pyLowerChar_not_upper (c : Nat) : isAsciiUpper (pyLowerChar c) = false := by
  simp only [pyLowerChar, isAsciiUpper, Bool.and_eq_false_iff, decide_eq_false_iff_not]
  split_ifs <;> omega

/-- Every code point of `spaceToUnderscore s` is an underscore or a
non-space code point of `s`. -/
lemma mem_spaceToUnderscore {c : Nat} {s : PyStr} (h : c ∈ spaceToUnderscore s) :
    c = 95 ∨ (c ∈ s ∧ c ≠ 32) := by
  unfold spaceToUnderscore at h
  obtain ⟨a, ha, rfl⟩ := List.mem_map.1 h
  by_cases h32 : a = 32
  · subst h32; exact Or.inl (by simp)
  · simp only [if_neg h32]; exact Or.inr ⟨ha, h32⟩

/-- Contextual disambiguation returns one of the two fixed resolutions or
the normalized input word. -/
lemma contextualDisambiguation_cases (word content : PyStr) :
    contextualDisambiguation word content = ("apple_inc").codes ∨
    contextualDisambiguation word content = ("фрукты").codes ∨
    contextualDisambiguation word content = spaceToUnderscore (pyLowerStr word) := by
  unfold contextualDisambiguation
  dsimp only
  split
  · exact Or.inl rfl
  · split
    · exact Or.inr (Or.inl rfl)
    · exact Or.inr (Or.inr rfl)

/-- The result of contextual disambiguation contains no space and no ASCII
uppercase letter, whatever the inputs are. -/
lemma contextualDisambiguation_clean (word content : PyStr) :
    ∀ c ∈ contextualDisambiguation word content, c ≠ 32 ∧ isAsciiUpper c = false := by
  have hsp : ∀ c ∈ spaceToUnderscore (pyLowerStr word), c ≠ 32 ∧ isAsciiUpper c = false := by
    intro c hc
    rcases mem_spaceToUnderscore hc with h95 | ⟨hmem, hne⟩
    · subst h95; exact ⟨by decide, by decide⟩
    · refine ⟨hne, ?_⟩
      obtain ⟨a, _, rfl⟩ := List.mem_map.1 hmem
      exact pyLowerChar_not_upper a
  rcases contextualDisambiguation_cases word content with h | h | h <;> rw [h]
  · decide
  · decide
  · exact hsp

/-- A successful association-list lookup yields a stored pair. -/
lemma dget_mem {κ α : Type} [DecidableEq κ] {d : List (κ × α)} {k : κ} {v : α}
    (h : dget d k = some v) : (k, v) ∈ d := by
  induction d with
  | nil => simp [dget] at h
  | cons p rest ih =>
    obtain ⟨k', v'⟩ := p
    unfold dget at h
    split at h
    · simp_all
    · exact List.mem_cons_of_mem _ (ih h)

/-- Every stored parent tag contains no space and no ASCII uppercase
letter. -/
lemma parentTags_clean :
    ∀ p ∈ parentTags, ∀ c ∈ p.2, c ≠ 32 ∧ isAsciiUpper c = false := by decide

/-- The tags added by `_add_parent_tags` come from the input list or from
the stored parent hierarchy. -/
lemma mem_addParentTags {t : PyStr} {tags : List PyStr} (h : t ∈ addParentTags tags) :
    t ∈ tags ∨ ∃ p ∈ parentTags, t = p.2 := by
  unfold addParentTags at h
  rcases List.mem_append.1 (List.mem_dedup.1 h) with h | h
  · exact Or.inl h
  · obtain ⟨a, _, ha⟩ := List.mem_filterMap.1 h
    exact Or.inr ⟨(a, t), dget_mem ha, rfl⟩

/-- `_add_parent_tags` at most doubles the number of tags. -/
lemma addParentTags_length_le (tags : List PyStr) :
    (addParentTags tags).length ≤ tags.length + tags.length := by
  calc (addParentTags tags).length
      ≤ (tags ++ tags.filterMap fun t => dget parentTags t).length :=
        (List.dedup_sublist _).length_le
    _ = tags.length + (tags.filterMap fun t => dget parentTags t).length := by
        simp
    _ ≤ tags.length + tags.length :=
        Nat.add_le_add_left (List.length_filterMap_le _ _) _

/-- `_normalize_and_limit_tags` returns at most `maxTags` tags. -/
lemma normalizeAndLimitTags_length_le (tags : List PyStr) (maxTags : Nat) :
    (normalizeAndLimitTags tags maxTags).length ≤ maxTags := by
  unfold normalizeAndLimitTags
  exact (List.length_take_le _ _)

/-! ### Claim C1 -/

/-- Input refuting claim C1: five LLM tags, one of which is `c++`, for a
summary that mentions every tag and every parent tag. -/
def tagsC1 : List PyStr :=
  [("llm").codes, ("стартап").codes, ("криптовалюта").codes, ("блокчейн").codes,
   ("c++").codes]

/-- The summary used to refute claim C1. -/
def summaryC1 : PyStr :=
  ("llm стартап криптовалюта блокчейн c++ искусственный интеллект бизнес финансы технологии").codes

/-- C1 is false as stated: on the LLM-success path the tag list produced by
`generate_tags_with_enhancements` for `tagsC1`/`summaryC1` has 9 entries
(parent tags are added after the 5-tag limit), and it contains `c++`, which
does not match `^[a-z0-9_]+$` (normalization never strips non-alphanumeric
characters). -/
theorem tags_agent_pattern_claim_false :
    ¬ ((llmSuccessTags tagsC1 [] summaryC1).length ≤ 5 ∧
       ∀ t ∈ llmSuccessTags tagsC1 [] summaryC1, matchesTagPattern t = true) := by
  decide

/-- C1 amended: on the LLM-success path the returned tag list has at most
10 entries (5 normalized tags, each contributing at most one parent tag),
and every returned tag contains no space character and no ASCII uppercase
letter.  Tags may retain other non-alphanumeric characters (for example
`c++`) and non-ASCII letters. -/
theorem tags_agent_tags_normalized (llmTags userTags : List PyStr) (summary : PyStr) :
    (llmSuccessTags llmTags userTags summary).length ≤ 10 ∧
    ∀ t ∈ llmSuccessTags llmTags userTags summary,
      ∀ c ∈ t, c ≠ 32 ∧ isAsciiUpper c = false := by
  constructor
  · unfold llmSuccessTags validateViaEmbeddings
    calc (List.filter _ (addParentTags _)).length
        ≤ (addParentTags ((normalizeAndLimitTags (llmTags ++ userTags) 5).map
            fun t => contextualDisambiguation t summary)).length :=
          List.length_filter_le _ _
      _ ≤ _ + _ := addParentTags_length_le _
      _ ≤ 10 := by
          have h := normalizeAndLimitTags_length_le (llmTags ++ userTags) 5
          rw [List.length_map]
          omega
  · intro t ht c hc
    unfold llmSuccessTags validateViaEmbeddings at ht
    have ht' := (List.mem_filter.1 ht).1
    rcases mem_addParentTags ht' with h | ⟨p, hp, rfl⟩
    · obtain ⟨w, _, rfl⟩ := List.mem_map.1 h
      exact contextualDisambiguation_clean w summary c hc
    · exact parentTags_clean p hp c hc

/-! ### Claim C9 -/

/-- The summary of the C9 scenario. -/
def summaryC9 : PyStr := ("Компания Apple представила новый чип").codes

/-- C9 is false as stated: for the summary «Компания Apple представила
новый чип», `_contextual_disambiguation` does not resolve `apple` to
`apple_inc`, because its context keyword lists are English-only and the
Russian word «компания» is not among them (both keyword counts are 0). -/
theorem tags_agent_disambiguation_claim_false :
    contextualDisambiguation (("apple").codes) summaryC9 ≠ ("apple_inc").codes := by
  decide

/-- C9 amended: for the summary «Компания Apple представила новый чип» the
disambiguation returns the normalized original word `apple` (neither
English-language context list matches the Russian text); it resolves to
`apple_inc` once an English company-context keyword is present, e.g. with
«Company» in place of «Компания». -/
theorem tags_agent_disambiguation_english_only :
    contextualDisambiguation (("apple").codes) summaryC9 = ("apple").codes ∧
    contextualDisambiguation (("apple").codes)
      (("Company Apple представила новый чип").codes) = ("apple_inc").codes := by
  constructor <;> decide

/-! ## Database layer (`src/database/db.py`)

The `users` table is modelled as an association list from `telegram_id` to
the row's JSON-decoded tag lists.  The sentinel tag «Всё» ("All") marks a
user who wants to see everything. -/

/-- A row of the `users` table (the tag columns, JSON-decoded). -/
structure UserRow where
  preferred_tags : List PyStr
  blocked_tags : List PyStr
deriving DecidableEq

/-- The `users` table keyed by `telegram_id`. -/
abbrev Db := List (Int × UserRow)

/-- The sentinel tag «Всё». -/
def allTag : PyStr := ("Всё").codes

/-- Python `set.add` on a canonical duplicate-free list. -/
def setAdd (s : List PyStr) (x : PyStr) : List PyStr :=
  if x ∈ s then s else s ++ [x]

/-- `get_user_profile`: returns the profile and the possibly-updated
database.  A missing row is created with `preferred_tags = ["Всё"]`; an
existing row whose preferred list is empty is rewritten to `["Всё"]`. -/
def getUserProfile (telegramId : Int) (db : Db) : UserRow × Db :=
  match dget db telegramId with
  | some row =>
    if row.preferred_tags = [] then
      let row' : UserRow := { row with preferred_tags := [allTag] }
      (row', dset db telegramId row')
    else (row, db)
  | none =>
    let row : UserRow := ⟨[allTag], []⟩
    (row, dset db telegramId row)

/-- `update_user_tags`.  The source manipulates Python `set` objects whose
iteration order is unspecified; sets are modelled as duplicate-free lists
(`List.dedup` canonicalisation), which preserves membership and
cardinality. -/
def updateUserTags (telegramId : Int) (tag : PyStr) (action : PyStr) (db : Db) : Db :=
  let gp := getUserProfile telegramId db
  let db1 := gp.2
  let preferred0 := gp.1.preferred_tags.dedup
  let blocked0 := gp.1.blocked_tags.dedup
  let pb :=
    if action = ("like").codes then
      let p := setAdd preferred0 tag
      let b := blocked0.erase tag
      let p := if allTag ∈ p ∧ 1 < p.length then p.erase allTag else p
      (p, b)
    else if action = ("dislike").codes then
      (preferred0.erase tag, setAdd blocked0 tag)
    else (preferred0, blocked0)
  let preferred := if pb.1 = [] then setAdd pb.1 allTag else pb.1
  dset db1 telegramId ⟨preferred, pb.2⟩

/-- `update_user_interests` (the database function): overwrites the user's
preferred tags with the given list, preserving blocked tags; a missing user
row is first inserted with the column defaults `'[]'`/`'[]'`. -/
def updateUserInterests (telegramId : Int) (preferredTags : List PyStr) (db : Db) : Db :=
  match dget db telegramId with
  | some row => dset db telegramId ⟨preferredTags, row.blocked_tags⟩
  | none => dset (dset db telegramId ⟨[], []⟩) telegramId ⟨preferredTags, []⟩

/-! ## Recommend Agent (`src/agents/recommend_agent.py`, `PersonalizationAgent`) -/

/-- Per-user interest weights: a CPython dict (insertion-ordered
association list) from tag to weight. -/
abbrev Interests := List (PyStr × ℚ)

/-- The mutable state of a `PersonalizationAgent` instance together with
the database it talks to. -/
structure RecState where
  db : Db
  userInterests : List (Int × Interests)
  explorationTracker : List (Int × Nat)
  totalRecommendations : Nat
  acceptedRecommendations : Nat
  explorationAttempts : Nat
  timeBasedRecommendations : Nat
deriving DecidableEq

/-- Observable side effects of a recommendation decision: how many times
the LLM client was invoked and how many times `get_user_profile` was
consulted. -/
structure Effects where
  llmCalls : Nat
  profileReads : Nat
deriving DecidableEq

/-- One outcome of `call_llm`: a response string (possibly the `"error"`
marker it returns on API failures), or an exception escaping the call. -/
inductive LlmResult where
  | resp (s : PyStr)
  | raise
deriving DecidableEq

/-- The external environment of the agent: the LLM oracle (indexed by call
number) and the current hour of `datetime.now()`. -/
structure RecEnv where
  llm : Nat → LlmResult
  hour : Nat

/-- The decay sweep of `_load_user_interests`: every weight is multiplied
by `decay_factor = 0.95` and entries that fall below `0.1` are deleted.
The source iterates over a snapshot of the keys, mutating the dict in
place, which is equivalent to this map-then-filter. -/
def decayInterests (l : Interests) : Interests :=
  (l.map fun p => (p.1, p.2 * (19/20))).filter fun p => ¬ p.2 < 1/10

/-- `_load_user_interests`: returns the decayed interests, the updated
state, and the number of `get_user_profile` reads performed (0 or 1).
On a cache miss the profile's preferred tags seed the dict with weight
`0.8` (a dict comprehension, modelled by folded insertion).  The decay
mutates the cached dict in place, so the cache ends up holding the decayed
dict. -/
def loadUserInterests (userId : Int) (st : RecState) : Interests × RecState × Nat :=
  match dget st.userInterests userId with
  | some interests =>
    let decayed := decayInterests interests
    (decayed, { st with userInterests := dset st.userInterests userId decayed }, 0)
  | none =>
    let gp := getUserProfile userId st.db
    let interests := gp.1.preferred_tags.foldl (fun d t => dset d t (4/5)) []
    let decayed := decayInterests interests
    (decayed,
     { st with db := gp.2, userInterests := dset st.userInterests userId decayed }, 1)

/-- The interests dict `_update_user_interests` works on: the cached dict
if present, otherwise the result of `_load_user_interests` (which also
fills the cache). -/
def interestsBeforeUpdate (userId : Int) (st : RecState) : Interests × RecState × Nat :=
  match dget st.userInterests userId with
  | some interests => (interests, st, 0)
  | none => loadUserInterests userId st

/-- `PersonalizationAgent._update_user_interests`: sets
`min(1.0, current + interaction_strength * 0.1)` for the tag and persists
the dict's key list through the database `update_user_interests`.  Returns
the new state and the number of profile reads performed. -/
def updateUserInterestsAgent (userId : Int) (tag : PyStr) (strength : ℚ)
    (st : RecState) : RecState × Nat :=
  let pre := interestsBeforeUpdate userId st
  let current := pre.1
  let st1 := pre.2.1
  let currentWeight := (dget current tag).getD 0
  let newWeight := min 1 (currentWeight + strength * (1/10))
  let current' := dset current tag newWeight
  let st2 := { st1 with userInterests := dset st1.userInterests userId current' }
  ({ st2 with db := updateUserInterests userId (dkeys current') st2.db }, pre.2.2)

/-- The time-of-day contexts of the agent. -/
inductive TimeContext where
  | morning | afternoon | evening | night
deriving DecidableEq

/-- `_get_time_context`, as a function of `datetime.now().hour`. -/
def getTimeContext (hour : Nat) : TimeContext :=
  if 5 ≤ hour ∧ hour < 12 then .morning
  else if 12 ≤ hour ∧ hour < 17 then .afternoon
  else if 17 ≤ hour ∧ hour < 22 then .evening
  else .night

/-- The `time_preferences` table. -/
def timePreferences : TimeContext → List PyStr
  | .morning => [("технологии").codes, ("новости").codes, ("бизнес").codes]
  | .afternoon => [("наука").codes, ("исследования").codes, ("аналитика").codes]
  | .evening => [("культура").codes, ("искусство").codes, ("кино").codes, ("музыка").codes]
  | .night => [("наука").codes, ("философия").codes, ("психология").codes]

/-- `_apply_time_context` minus its metrics bump (done by the caller):
boost time-appropriate interests by 10 percent, capped at 1. -/
def applyTimeContext (hour : Nat) (ui : Interests) : Interests :=
  (timePreferences (getTimeContext hour)).foldl
    (fun d t =>
      match dget d t with
      | some w => dset d t (min 1 (w * (11/10)))
      | none => d)
    ui

/-- `_calculate_content_score`. -/
def calculateContentScore (ui : Interests) (tags : List PyStr) : ℚ :=
  if tags = [] then 0
  else
    let scores := tags.map fun t => (dget ui t).getD 0
    let total := scores.sum
    let maxScore := scores.foldl max 0
    min 1 (total / (tags.length : ℚ) * (3/5) + maxScore * (2/5))

/-- `_should_explore`: the modulo-based exploration decision, bumping the
`exploration_attempts` metric when it fires. -/
def shouldExplore (userId : Int) (st : RecState) : Bool × RecState :=
  let count := (dget st.explorationTracker userId).getD 0
  let se := (st.totalRecommendations + count) % 5 = 0
  (decide se,
   if se then { st with explorationAttempts := st.explorationAttempts + 1 } else st)

/-- `_find_exploration_content`: tags with weight in `[0.3, 0.7]`, in dict
order, limited to 3. -/
def findExplorationContent (ui : Interests) : List PyStr :=
  ((ui.filter fun p => 3/10 ≤ p.2 ∧ p.2 ≤ 7/10).map Prod.fst).take 3

/-- `_calculate_diversity_score`. -/
def calculateDiversityScore (newTags existing : List PyStr) : ℚ :=
  if existing = [] then 1
  else
    let common := (newTags.dedup.filter fun t => t ∈ existing).length
    max 0 (1 - (common : ℚ) / ((max newTags.length 1 : Nat) : ℚ))

/-- The decision made from a `call_llm` response inside
`_refine_recommendation_with_llm`: the `"error"` marker defaults to
acceptance, otherwise accept iff the lowercased response contains `yes`. -/
def refineDecision (s : PyStr) : Bool :=
  if s = ("error").codes then true else hasSub (("yes").codes) (pyLowerStr s)

/-- Sequentially apply `_update_user_interests` with strength `0.1` to a
list of tags (the acceptance loops of `is_relevant`), accumulating profile
reads. -/
def updateTagsFold (userId : Int) (tags : List PyStr) (st : RecState) : RecState × Nat :=
  tags.foldl
    (fun acc t =>
      let r := updateUserInterestsAgent userId t (1/10) acc.1
      (r.1, acc.2 + r.2))
    (st, 0)

/-- `PersonalizationAgent.is_relevant`.  An interaction-history item is
modelled by its `tags` field (`item.get("tags", [])`), the only field the
source reads; a `None` history is the empty list.  The result carries the
decision, the final state, and the observable `Effects` (LLM invocations
and `get_user_profile` reads); an uncaught exception from the LLM client
is `Except.error`. -/
def isRelevant (env : RecEnv) (st0 : RecState) (userId : Int) (category : PyStr)
    (tags : List PyStr) (history : List (List PyStr)) :
    Except Unit (Bool × RecState × Effects) :=
  if tags = [] then .ok (false, st0, ⟨0, 0⟩)
  else
    let st := { st0 with totalRecommendations := st0.totalRecommendations + 1 }
    let l1 := loadUserInterests userId st
    let hasSufficientInterests := 3 ≤ l1.1.length
    let st := l1.2.1
    let gp := getUserProfile userId st.db
    let profile := gp.1
    let st := { st with db := gp.2 }
    let reads := l1.2.2 + 1
    if allTag ∈ profile.preferred_tags then
      if tags.any fun t => t ∈ profile.blocked_tags then .ok (false, st, ⟨0, reads⟩)
      else
        let l2 := loadUserInterests userId st
        let st := l2.2.1
        let reads := reads + l2.2.2
        let isValid :=
          match env.llm 0 with
          | .raise => true
          | .resp s => refineDecision s
        if isValid then
          let st := { st with acceptedRecommendations := st.acceptedRecommendations + 1 }
          if profile.preferred_tags.length = 1 ∧ allTag ∈ profile.preferred_tags then
            .ok (true, st, ⟨1, reads⟩)
          else
            let u := updateTagsFold userId (tags.filter fun t => t ≠ allTag) st
            .ok (true, u.1, ⟨1, reads + u.2⟩)
        else .ok (false, st, ⟨1, reads⟩)
    else if ¬ hasSufficientInterests then
      if tags.any fun t => t ∈ profile.blocked_tags then .ok (false, st, ⟨0, reads⟩)
      else
        let l2 := loadUserInterests userId st
        let st := l2.2.1
        let reads := reads + l2.2.2
        match env.llm 0 with
        | .raise => .error ()
        | .resp s =>
          if refineDecision s then
            let st := { st with acceptedRecommendations := st.acceptedRecommendations + 1 }
            let u := updateTagsFold userId tags st
            .ok (true, u.1, ⟨1, reads + u.2⟩)
          else .ok (false, st, ⟨1, reads⟩)
    else
      let l2 := loadUserInterests userId st
      let st := l2.2.1
      let reads := reads + l2.2.2
      let st := { st with timeBasedRecommendations := st.timeBasedRecommendations + 1 }
      let adjusted := applyTimeContext env.hour l2.1
      let ex := shouldExplore userId st
      let st := ex.2
      let explorationGate :=
        if ex.1 then
          let explorationTags := findExplorationContent adjusted
          if explorationTags ≠ [] ∧ ¬ tags.any (fun t => t ∈ explorationTags) then
            if calculateContentScore adjusted tags < 3/10 then
              tags.any fun t => (2/10 : ℚ) < (dget adjusted t).getD 0
            else true
          else true
        else true
      if ¬ explorationGate then .ok (false, st, ⟨0, reads⟩)
      else
        let contentScore := calculateContentScore adjusted tags
        let recentTags := ((history.drop (history.length - 5)).foldl (· ++ ·) [])
        let diversityScore := calculateDiversityScore tags recentTags
        let finalScore := contentScore * (7/10) + diversityScore * (3/10)
        let gp2 := getUserProfile userId st.db
        let st := { st with db := gp2.2 }
        let reads := reads + 1
        if tags.any fun t => t ∈ gp2.1.blocked_tags then .ok (false, st, ⟨0, reads⟩)
        else
          let isRel0 := decide (3/10 ≤ finalScore)
          if isRel0 ∧ 2/10 < contentScore then
            match env.llm 0 with
            | .raise => .error ()
            | .resp s =>
              if refineDecision s then
                let st := { st with acceptedRecommendations := st.acceptedRecommendations + 1 }
                let u := updateTagsFold userId tags st
                .ok (true, u.1, ⟨1, reads + u.2⟩)
              else .ok (false, st, ⟨1, reads⟩)
          else
            if isRel0 then
              let st := { st with acceptedRecommendations := st.acceptedRecommendations + 1 }
              let u := updateTagsFold userId tags st
              .ok (true, u.1, ⟨0, reads + u.2⟩)
            else .ok (false, st, ⟨0, reads⟩)

/-! ### Supporting lemmas for the database and recommendation claims -/

/-- Looking up the key just written returns the written value. -/
lemma dget_dset_self {κ α : Type} [DecidableEq κ] (d : List (κ × α)) (k : κ) (v : α) :
    dget (dset d k v) k = some v := by
  induction d with
  | nil => simp [dset, dget]
  | cons p rest ih =>
    obtain ⟨k', v'⟩ := p
    by_cases h : k = k' <;> simp [dset, dget, h, ih]

/-- The key just written is among the dict's keys. -/
lemma dkeys_dset_mem {κ α : Type} [DecidableEq κ] (d : List (κ × α)) (k : κ) (v : α) :
    k ∈ dkeys (dset d k v) := by
  induction d with
  | nil => simp [dset, dkeys]
  | cons p rest ih =>
    obtain ⟨k', v'⟩ := p
    by_cases h : k = k' <;> simp [dset, dkeys, h] <;> simp [dkeys] at ih <;> simp [ih]

/-- `update_user_interests` leaves the user's row holding exactly the
given preferred tags. -/
lemma updateUserInterests_lookup (telegramId : Int) (pref : List PyStr) (db : Db) :
    ∃ row, dget (updateUserInterests telegramId pref db) telegramId = some row ∧
      row.preferred_tags = pref := by
  unfold updateUserInterests
  match h : dget db telegramId with
  | some row => exact ⟨_, dget_dset_self .., rfl⟩
  | none => exact ⟨_, dget_dset_self .., rfl⟩

/-- Adding to an empty set yields a singleton. -/
lemma setAdd_nil (x : PyStr) : setAdd [] x = [x] := by simp [setAdd]

/-! ### Claim C4 -/

/-- C4: every user-profile write keeps at least one preferred tag.
`get_user_profile` creates missing rows with `["Всё"]` and rewrites empty
rows to `["Всё"]`; `update_user_tags` re-adds «Всё» whenever the computed
preferred set is empty (in particular, disliking the only preferred tag
falls back to `["Всё"]`); and the agent-side `_update_user_interests`
(the recommendation-acceptance path) persists the interest dict's key
list, which contains the tag just reinforced. -/
theorem db_preferred_tags_invariant :
    (∀ db tid, ∃ row, dget (getUserProfile tid db).2 tid = some row ∧
      row.preferred_tags ≠ []) ∧
    (∀ db tid tag action, ∃ row, dget (updateUserTags tid tag action db) tid = some row ∧
      row.preferred_tags ≠ []) ∧
    (∀ st uid tag strength, ∃ row,
      dget (updateUserInterestsAgent uid tag strength st).1.db uid = some row ∧
      row.preferred_tags ≠ []) ∧
    (∀ db tid tag,
      (getUserProfile tid db).1.preferred_tags.dedup = [tag] →
      ∃ row, dget (updateUserTags tid tag (("dislike").codes) db) tid = some row ∧
        row.preferred_tags = [allTag]) := by
  refine ⟨fun db tid => ?_, fun db tid tag action => ?_, fun st uid tag strength => ?_,
    fun db tid tag h => ?_⟩
  · unfold getUserProfile
    rcases hrow : dget db tid with _ | row <;> dsimp only
    · exact ⟨⟨[allTag], []⟩, dget_dset_self .., by simp⟩
    · by_cases hp : row.preferred_tags = []
      · rw [if_pos hp]
        exact ⟨{ row with preferred_tags := [allTag] }, dget_dset_self .., by simp⟩
      · rw [if_neg hp]
        exact ⟨row, hrow, hp⟩
  · unfold updateUserTags
    dsimp only
    set pb := if action = ("like").codes then _ else _ with hpb
    by_cases hp : pb.1 = []
    · refine ⟨_, by rw [if_pos hp]; exact dget_dset_self .., ?_⟩
      dsimp only
      rw [hp, setAdd_nil]
      decide
    · exact ⟨_, by rw [if_neg hp]; exact dget_dset_self .., hp⟩
  · unfold updateUserInterestsAgent
    dsimp only
    obtain ⟨row, hrow, hpref⟩ := updateUserInterests_lookup uid
      (dkeys (dset (interestsBeforeUpdate uid st).1 tag
        (min 1 ((dget (interestsBeforeUpdate uid st).1 tag).getD 0 + strength * (1/10)))))
      (interestsBeforeUpdate uid st).2.1.db
    refine ⟨row, hrow, ?_⟩
    rw [hpref]
    intro hnil
    exact (List.ne_nil_of_mem (dkeys_dset_mem ..)) hnil
  · unfold updateUserTags
    dsimp only
    rw [h]
    have hact : (("dislike").codes = ("like").codes) = False := by decide
    simp only [hact, if_false, eq_self_iff_true, if_true, List.erase_cons_head]
    refine ⟨_, dget_dset_self .., ?_⟩
    simp [setAdd]

/-- Witness for C4: disliking the single preferred tag `x` of user 1
leaves the persisted profile at `["Всё"]`. -/
theorem db_preferred_tags_invariant_witness :
    ∃ row, dget (updateUserTags 1 (("x").codes) (("dislike").codes)
      [(1, (⟨[("x").codes], []⟩ : UserRow))]) 1 = some row ∧
      row.preferred_tags = [allTag] :=
  db_preferred_tags_invariant.2.2.2 [(1, ⟨[("x").codes], []⟩)] 1 (("x").codes) (by decide)

/-! ### Claim C5 -/

/-- The concrete agent state refuting C5: user 1 has a cached interest
weight of `0.5` for tag `x`. -/
def stC5 : RecState :=
  ⟨[], [(1, [(("x").codes, 1/2)])], [], 0, 0, 0, 0⟩

/-- C5 is false as stated: an accepted recommendation calls
`_update_user_interests(user_id, tag, 0.1)`, and the update rule
`min(1.0, current + interaction_strength * 0.1)` therefore adds
`0.1 * 0.1 = 0.01`, not the claimed fixed increment `0.1`: starting from
weight `0.5`, the persisted weight is `0.51`, not `0.6`. -/
theorem recommend_increment_claim_false :
    dget ((dget (updateUserInterestsAgent 1 (("x").codes) (1/10) stC5).1.userInterests 1).getD [])
      (("x").codes) = some (51/100) ∧ ((51:ℚ)/100) ≠ min 1 (1/2 + 1/10) := by
  constructor
  · simp [updateUserInterestsAgent, interestsBeforeUpdate, stC5, dget, dset, dkeys]
    norm_num
  · intro h
    rw [show min (1:ℚ) (1/2 + 1/10) = 3/5 by norm_num] at h
    norm_num at h

/-- C5 amended: on the acceptance path the agent calls
`_update_user_interests` with `interaction_strength = 0.1`, so the tag's
weight rises by `0.01` (computed over the dict the update works on: the
cached interests, or the freshly loaded ones on a cache miss), capped at
`1.0`; the updated dict's key list — which contains the tag — is persisted
as the user's preferred tags. -/
theorem recommend_accept_increment (userId : Int) (tag : PyStr) (st : RecState) :
    dget (updateUserInterestsAgent userId tag (1/10) st).1.userInterests userId =
      some (dset (interestsBeforeUpdate userId st).1 tag
        (min 1 ((dget (interestsBeforeUpdate userId st).1 tag).getD 0 + 1/100))) ∧
    (∃ row, dget (updateUserInterestsAgent userId tag (1/10) st).1.db userId = some row ∧
      row.preferred_tags = dkeys (dset (interestsBeforeUpdate userId st).1 tag
        (min 1 ((dget (interestsBeforeUpdate userId st).1 tag).getD 0 + 1/100)))) ∧
    tag ∈ dkeys (dset (interestsBeforeUpdate userId st).1 tag
      (min 1 ((dget (interestsBeforeUpdate userId st).1 tag).getD 0 + 1/100))) := by
  have harith : ((1:ℚ)/10) * (1/10) = 1/100 := by norm_num
  unfold updateUserInterestsAgent
  dsimp only
  rw [harith]
  exact ⟨dget_dset_self .., updateUserInterests_lookup .., dkeys_dset_mem ..⟩

/-! ### Claim C10 -/

/-- C10: with an empty content tag list, `is_relevant` returns `False`
immediately — the state is unchanged and neither `get_user_profile` nor
the LLM client is consulted — for every user, category, interaction
history, environment, and agent state. -/
theorem recommend_empty_tags_rejected (env : RecEnv) (st : RecState) (userId : Int)
    (category : PyStr) (history : List (List PyStr)) :
    isRelevant env st userId category [] history = .ok (false, st, ⟨0, 0⟩) := rfl

/-! ## Summarize Agent (`src/agents/summarizer_agent.py`, `AdaptiveSummaryAgent`) -/

/-- The article types classified by `_classify_article_type`. -/
inductive ArticleType where
  | analytics | newsBrief | interview | pressRelease | opinion | unknown
deriving DecidableEq

/-- The audience types of `_determine_audience`. -/
inductive AudienceType where
  | expert | beginner | neutral
deriving DecidableEq

/-- The summary styles. -/
inductive SummaryStyle where
  | brief | points | detailed
deriving DecidableEq

/-- The `analytics_keywords` list. -/
def analyticsKeywords : List PyStr :=
  [("analysis").codes, ("study").codes, ("research").codes, ("data").codes,
   ("trend").codes, ("market").codes]

/-- The `interview_keywords` list; `39` is the apostrophe of the source's
final keyword. -/
def interviewKeywords : List PyStr :=
  [("interview").codes, ("q&a").codes, ("question").codes, ("answer").codes,
   ("says:").codes, 39 :: ("said").codes]

/-- The `press_release_keywords` list.  `CEO` is uppercase in the source
even though it is matched against lowercased text, so it can never hit. -/
def pressReleaseKeywords : List PyStr :=
  [("announces").codes, ("today announced").codes, ("press release").codes,
   ("company").codes, ("CEO").codes, ("according to").codes]

/-- The `opinion_keywords` list. -/
def opinionKeywords : List PyStr :=
  [("in my opinion").codes, ("think").codes, ("believe").codes,
   ("personally").codes, ("view").codes, ("perspective").codes]

/-- `_classify_article_type`. -/
def classifyArticleType (text : PyStr) : ArticleType :=
  let textLower := pyLowerStr text
  if analyticsKeywords.any fun k => hasSub k textLower then .analytics
  else if interviewKeywords.any fun k => hasSub k textLower then .interview
  else if pressReleaseKeywords.any fun k => hasSub k textLower then .pressRelease
  else if opinionKeywords.any fun k => hasSub k textLower then .opinion
  else if text.length < 500 then .newsBrief
  else .unknown

/-- The `tech_interests` list of `_determine_audience`. -/
def techInterests : List PyStr :=
  [("technology").codes, ("programming").codes, ("ai").codes, ("software").codes,
   ("science").codes, ("technical").codes]

/-- The `beginner_interests` list of `_determine_audience`. -/
def beginnerInterests : List PyStr :=
  [("for beginners").codes, ("intro").codes, ("basic").codes, ("simple").codes,
   ("easy").codes]

/-- `_determine_audience`; `user_profile or {}` makes a missing profile
behave as an empty dict, whose `preferred_tags` default to `[]`.  The
`in` tests are list membership. -/
def determineAudience (userProfile : Option UserRow) : AudienceType :=
  let preferredTags := (userProfile.map UserRow.preferred_tags).getD []
  if techInterests.any fun t => t ∈ preferredTags then .expert
  else if beginnerInterests.any fun t => t ∈ preferredTags then .beginner
  else .neutral

/-- The `SummaryContext` dataclass. -/
structure SummaryContext where
  article_type : ArticleType
  audience : AudienceType
  original_length : Nat
  user_preferences : Option UserRow
  summary_style : SummaryStyle

/-- `SummaryStyle(style) if style in [e.value for e in SummaryStyle] else
SummaryStyle.BRIEF` (line 204). -/
def summaryStyleOfStr (s : PyStr) : SummaryStyle :=
  if s = ("brief").codes then .brief
  else if s = ("points").codes then .points
  else if s = ("detailed").codes then .detailed
  else .brief

/-- `_select_style_by_context`. -/
def selectStyleByContext (ctx : SummaryContext) : SummaryStyle :=
  if ctx.audience = .expert ∧ 1000 < ctx.original_length then .detailed
  else if ctx.article_type = .interview then .points
  else if ctx.original_length < 300 then .brief
  else ctx.summary_style

/-- `.value` of an article type. -/
def articleTypeValue : ArticleType → PyStr
  | .analytics => ("analytics").codes
  | .newsBrief => ("news_brief").codes
  | .interview => ("interview").codes
  | .pressRelease => ("press_release").codes
  | .opinion => ("opinion").codes
  | .unknown => ("unknown").codes

/-- `.value` of an audience type. -/
def audienceValue : AudienceType → PyStr
  | .expert => ("expert").codes
  | .beginner => ("beginner").codes
  | .neutral => ("neutral").codes

/-- The `style_description` table of `_generate_with_context`. -/
def styleDescription : SummaryStyle → PyStr
  | .brief => ("a brief summary focusing on the main point").codes
  | .points => ("a point-form summary with 3-5 key points").codes
  | .detailed => ("a comprehensive summary capturing all important details").codes

/-- The `audience_tone` table of `_generate_with_context`. -/
def audienceTone : AudienceType → PyStr
  | .expert => ("using technical terminology where appropriate").codes
  | .beginner => ("with explanations for complex concepts").codes
  | .neutral => []

/-- `.replace("{", "{{").replace("}", "}}")`: the sequential replacements
do not interfere, so they amount to doubling every brace. -/
def pyBraceEscape (s : PyStr) : PyStr :=
  s.flatMap fun c => if c = 123 then [123, 123] else if c = 125 then [125, 125] else [c]

/-- Decimal rendering of a number interpolated into an f-string. -/
def natToCodes (n : Nat) : PyStr := (Nat.repr n).codes

/-- `_generate_with_context`: the extended prompt (the file-loaded
template is read but never interpolated by the source) with braces
escaped.  `10` is the newline. -/
def generateWithContext (text : PyStr) (ctx : SummaryContext) : PyStr :=
  let extendedPrompt :=
    ("Article Type: ").codes ++ articleTypeValue ctx.article_type ++ [10] ++
    ("Audience: ").codes ++ audienceValue ctx.audience ++ [10] ++
    ("Original Length: ").codes ++ natToCodes ctx.original_length ++
    (" characters").codes ++ [10] ++
    ("Style: ").codes ++ styleDescription ctx.summary_style ++ [10] ++
    ("Tone: ").codes ++ audienceTone ctx.audience ++ [10, 10] ++
    text ++ [10, 10] ++ ("Summary:").codes
  pyBraceEscape extendedPrompt

/-- Python `s.split(sep)` for a single-character separator (keeps empty
segments, like `'a..b'.split('.') == ['a', '', 'b']`). -/
def pySplitChar (sep : Nat) : PyStr → List PyStr
  | [] => [[]]
  | c :: rest =>
    let r := pySplitChar sep rest
    if c = sep then [] :: r
    else
      match r with
      | [] => [[c]]
      | h :: t => (c :: h) :: t

/-- The fallback of `generate_adaptive_summary` when `call_llm` yields
`"error"`: the first three sentences, or a 200-character prefix. -/
def fallbackSummary (text : PyStr) : PyStr :=
  let sentences := pySplitChar 46 text
  if 3 < sentences.length then
    List.intercalate ((". ").codes) (sentences.take 3) ++ [46]
  else if 200 < text.length then text.take 200 ++ ("...").codes
  else text

/-- `_verify_facts`, as a function of the verification response: a falsy
(empty) response or one whose lowercasing lacks `valid` fails. -/
def verifyFactsDecision (response : PyStr) : Bool :=
  decide (response ≠ []) && hasSub (("valid").codes) (pyLowerStr response)

/-- `_apply_format`.  The `plain_text` and `html` branches run `re.sub`
markdown rewrites, modelled by the oracle parameters `plainFmt`/`htmlFmt`;
the html branch additionally replaces newlines by `<br>` (concrete). -/
def applyFormat (plainFmt htmlFmt : PyStr → PyStr) (summary : PyStr)
    (formatType : PyStr) : PyStr :=
  if formatType = ("markdown").codes then summary
  else if formatType = ("plain_text").codes then plainFmt summary
  else if formatType = ("html").codes then
    (htmlFmt summary).flatMap fun c => if c = 10 then ("<br>").codes else [c]
  else summary

/-- `generate_adaptive_summary`.  `llm n prompt` is the response of the
`n`-th `call_llm` invocation (`call_llm` returns the `"error"` marker on
failure and never raises).  The second component is the `selected_style`
recorded in the agent's `style_distribution` metric, `none` on the
empty-text early return.  `_verify_facts` (the second LLM call) only emits
a log warning, so its decision does not affect the returned summary. -/
def generateAdaptiveSummary (plainFmt htmlFmt : PyStr → PyStr)
    (llm : Nat → PyStr → PyStr) (text : PyStr) (userProfile : Option UserRow)
    (style outputFormat : PyStr) : PyStr × Option SummaryStyle :=
  if text = [] ∨ pyStrip text = [] then
    (("Text unavailable for summarization.").codes, none)
  else
    let articleType := classifyArticleType text
    let audience := determineAudience userProfile
    let summaryStyle := summaryStyleOfStr style
    let ctx : SummaryContext := ⟨articleType, audience, text.length, userProfile, summaryStyle⟩
    let selectedStyle := selectStyleByContext ctx
    let ctx := { ctx with summary_style := selectedStyle }
    let promptText := generateWithContext text ctx
    let response := llm 0 promptText
    let response := if response = ("error").codes then fallbackSummary text else response
    let _isValid := verifyFactsDecision (llm 1 response)
    (applyFormat plainFmt htmlFmt response outputFormat, some selectedStyle)

/-! ### Supporting lemmas for Claim C8 -/

/-- Lowercasing preserves whitespace-ness in both directions. -/
lemma isPyWs_pyLowerChar (c : Nat) : isPyWs (pyLowerChar c) = isPyWs c := by
  refine Bool.eq_iff_iff.mpr ?_
  unfold pyLowerChar isPyWs
  split_ifs <;> simp only [Bool.or_eq_true, decide_eq_true_eq] <;> omega

/-- A successful substring test means every code point of the needle
occurs in the haystack. -/
lemma hasSub_subset {k h : PyStr} (hsub : hasSub k h = true) : k ⊆ h := by
  induction h with
  | nil =>
    unfold hasSub at hsub
    simp only [decide_eq_true_eq] at hsub
    subst hsub; exact List.Subset.refl _
  | cons a t ih =>
    unfold hasSub at hsub
    rcases Bool.or_eq_true _ _ |>.mp hsub with hp | hs
    · exact (List.isPrefixOf_iff_prefix.mp hp).subset
    · exact (ih hs).trans (List.subset_cons_self a t)

/-- A list whose stripped form is empty is all whitespace. -/
lemma all_ws_of_pyStrip_eq_nil {l : PyStr} (h : pyStrip l = []) :
    ∀ c ∈ l, isPyWs c = true := by
  unfold pyStrip at h
  rw [List.reverse_eq_nil_iff, List.dropWhile_eq_nil_iff] at h
  intro c hc
  rcases List.mem_append.1 ((List.takeWhile_append_dropWhile (p := isPyWs) (l := l)) ▸ hc) with
    htk | hdr
  · exact List.mem_takeWhile_imp htk
  · exact h c (by simpa using List.mem_reverse.2 hdr)

/-! ### Claim C8 -/

/-- C8: for a 4000-character body containing an analytics keyword and a
profile classified as expert, `generate_adaptive_summary` selects the
`detailed` style even though the caller requested `brief`. -/
theorem summarizer_expert_long_detailed (plainFmt htmlFmt : PyStr → PyStr)
    (llm : Nat → PyStr → PyStr) (text : PyStr) (userProfile : Option UserRow)
    (outputFormat : PyStr)
    (hlen : text.length = 4000)
    (hana : (analyticsKeywords.any fun k => hasSub k (pyLowerStr text)) = true)
    (hexp : determineAudience userProfile = .expert) :
    (generateAdaptiveSummary plainFmt htmlFmt llm text userProfile
      (("brief").codes) outputFormat).2 = some .detailed := by
  have hne : ¬ (text = [] ∨ pyStrip text = []) := by
    rintro (hnil | hstrip)
    · rw [hnil] at hlen; simp at hlen
    · have hkfacts : ∀ k ∈ analyticsKeywords, k ≠ [] ∧ ∀ c ∈ k, isPyWs c = false := by
        decide
      obtain ⟨k, hk, hsub⟩ := List.any_eq_true.1 hana
      obtain ⟨c, hc⟩ := List.exists_mem_of_ne_nil k (hkfacts k hk).1
      have hcl : c ∈ pyLowerStr text := hasSub_subset hsub hc
      obtain ⟨c0, hc0, hc0l⟩ := List.mem_map.1 hcl
      have hws0 := all_ws_of_pyStrip_eq_nil hstrip c0 hc0
      have := isPyWs_pyLowerChar c0
      rw [hc0l, hws0] at this
      rw [(hkfacts k hk).2 c hc] at this
      exact Bool.false_ne_true this
  unfold generateAdaptiveSummary
  rw [if_neg hne]
  dsimp only
  unfold selectStyleByContext
  dsimp only
  split_ifs with h1
  · rfl
  all_goals exact absurd ⟨hexp, by omega⟩ h1

/-- Witness for C8: a 4000-character body starting with `analysis`
followed by 3992 `x` characters, for a user whose preferred tags include
`ai`. -/
theorem summarizer_expert_long_detailed_witness :
    (generateAdaptiveSummary id id (fun _ _ => ("ok").codes)
      (("analysis").codes ++ List.replicate 3992 120)
      (some ⟨[("ai").codes], []⟩) (("brief").codes) (("markdown").codes)).2 =
      some .detailed :=
  summarizer_expert_long_detailed id id (fun _ _ => ("ok").codes) _ _ _
    (by rw [List.length_append, List.length_replicate]; rfl) (by decide) (by decide)

/-! ## Parse Agent (`src/agents/parser_agent.py`, `ParserAgent`) -/

/-- The `spam_words` list. -/
def spamWords : List PyStr :=
  [("click here").codes, ("buy now").codes, ("limited time").codes, ("act now").codes,
   ("free money").codes, ("get rich").codes, ("miracle cure").codes,
   ("work from home").codes]

/-- The `nsfw_words` list. -/
def nsfwWords : List PyStr :=
  [("porn").codes, ("sex").codes, ("nude").codes, ("adult").codes, ("erotic").codes,
   ("explicit").codes, ("intimate").codes, ("sensual").codes, ("sexual").codes]

/-- The `ParseResult` dataclass. -/
structure ParseResult where
  title : PyStr
  text : PyStr
  url : PyStr
  published_at : PyStr
  source : PyStr
  author : Option PyStr
  language : Option PyStr
  country : Option PyStr
  success : Bool
  error_reason : Option PyStr
deriving DecidableEq

/-- The content types of `_detect_content_type`. -/
inductive ContentType where
  | rss | html | plainText
deriving DecidableEq

/-- `_detect_content_type`. -/
def detectContentType (content : PyStr) : ContentType :=
  let contentLower := pyLowerStr content
  if hasSub (("<rss").codes) contentLower || hasSub (("<feed").codes) contentLower then .rss
  else if hasSub (("<html").codes) contentLower || hasSub (("<article").codes) contentLower
      || hasSub (("<p>").codes) contentLower then .html
  else .plainText

/-- Python `str.isspace()`: nonempty and all whitespace. -/
def pyIsSpace (s : PyStr) : Bool := decide (s ≠ []) && s.all isPyWs

/-- Python `hay.find(needle)` as an option (the source's `-1` is `none`). -/
def firstIdxOf (needle hay : PyStr) : Option Nat :=
  match hay with
  | [] => if needle = [] then some 0 else none
  | _ :: t =>
    if needle.isPrefixOf hay then some 0
    else (firstIdxOf needle t).map (· + 1)

/-- `ParserAgent._validate_result`. -/
def validateResult (r : ParseResult) : Bool :=
  if r.title = [] ∨ pyStrip r.title = [] then false
  else if (pyStrip r.title).length < 2 then false
  else
    let combinedText := pyLowerStr (r.title ++ [32] ++ r.text)
    if spamWords.any fun w => hasSub (pyLowerStr w) combinedText then false
    else if nsfwWords.any fun w => hasSub (pyLowerStr w) combinedText then false
    else true

/-- The `title.lower().startswith(('good', 'ok', 'well', 'i', 'here'))`
test of `_rule_based_parse`. -/
def titleLooksLikeExplanation (t : PyStr) : Bool :=
  let tl := pyLowerStr t
  [("good").codes, ("ok").codes, ("well").codes, ("i").codes, ("here").codes].any
    fun p => p.isPrefixOf tl

/-- The first title candidate of `_rule_based_parse` (lines 105–114):
the first non-trivial sentence, possibly replaced by a longer second
sentence when it is short or looks like explanation text. -/
def ruleBasedTitle0 (sentences : List PyStr) : PyStr :=
  match sentences with
  | [] => ("Untitled").codes
  | s0 :: restS =>
    if s0.length < 10 ∨ titleLooksLikeExplanation s0 then
      match restS with
      | [] => s0
      | s1 :: _ => if s0.length ≤ s1.length then s1 else s0
    else s0

/-- The title repair of `_rule_based_parse` (lines 117–121): an empty or
too-short candidate is replaced by the stripped 50-character prefix of the
cleaned text, or by `Untitled`. -/
def finalizeTitle (cleanText title0 : PyStr) : PyStr :=
  if title0 = [] ∨ (pyStrip title0).length < 3 then
    if (pyStrip (cleanText.take 50)).length < 3 then ("Untitled").codes
    else pyStrip (cleanText.take 50)
  else title0

/-- The title/body computation of `_rule_based_parse` on the cleaned
text. -/
def ruleBasedTitleText (cleanText0 : PyStr) : PyStr × PyStr :=
  if cleanText0 = [] ∨ pyIsSpace cleanText0 then ((("Untitled").codes), [])
  else
    let cleanText := pyStrip cleanText0
    let sentences := (pySplitChar 46 cleanText).filterMap fun s =>
      if pyStrip s = [] then none else some (pyStrip s)
    let title1 := finalizeTitle cleanText (ruleBasedTitle0 sentences)
    let titleEndPos :=
      if title1 ≠ ("Untitled").codes then firstIdxOf title1 cleanText else none
    let text :=
      match titleEndPos with
      | some pos => pyStrip (cleanText.drop (pos + title1.length))
      | none => pyStrip (cleanText.drop title1.length)
    (title1, text)

/-- `ParserAgent._rule_based_parse`.  The BeautifulSoup HTML cleaner and
`urlparse(...).netloc` are external-library calls, passed in as the
oracle parameters `cleaner` and `netlocOf`; every theorem below holds for
all choices of these functions. -/
def ruleBasedParse (cleaner netlocOf : PyStr → PyStr) (content url : PyStr) : ParseResult :=
  let contentType := detectContentType content
  let cleanText := if contentType = .html then cleaner content else pyStrip content
  let tt := ruleBasedTitleText cleanText
  { title := tt.1, text := tt.2, url := url,
    published_at := ("unknown").codes,
    source := (if netlocOf url = [] then url else netlocOf url),
    author := none, language := none, country := none,
    success := true, error_reason := none }

/-- A JSON object successfully extracted by `_call_llm_parser`, seen
through the `llm_result.get(...)` accesses of `parse_with_retry`: `none`
fields are absent keys.  (A `None` return of `_call_llm_parser`, or a
falsy `{}` object, is modelled by the oracle returning `none` for the
whole record.) -/
structure LlmParsed where
  title : Option PyStr
  text : Option PyStr
  published_at : Option PyStr
  source : Option PyStr
  author : Option PyStr
  language : Option PyStr
  country : Option PyStr
deriving DecidableEq

/-- The metadata produced by `_extract_metadata` (regex- and
`urlparse`-based; passed in as an oracle parameter). -/
structure ParsedMeta where
  author : Option PyStr
  language : PyStr
  source : PyStr
deriving DecidableEq

/-- Python truthiness of an optional string. -/
def strTruthy : Option PyStr → Bool
  | none => false
  | some s => decide (s ≠ [])

/-- The `ParseResult` built from an LLM parse (lines 280–289). -/
def resultFromLlm (lp : LlmParsed) (url : PyStr) : ParseResult :=
  { title := lp.title.getD [], text := lp.text.getD [], url := url,
    published_at := lp.published_at.getD (("unknown").codes),
    source := lp.source.getD (("unknown").codes),
    author := lp.author, language := lp.language, country := lp.country,
    success := true, error_reason := none }

/-- The metadata backfill of `parse_with_retry` (lines 292–296), using
Python `or` semantics on the fields. -/
def fillMetadata (extractMeta : PyStr → PyStr → ParsedMeta) (text url : PyStr)
    (r : ParseResult) : ParseResult :=
  if ¬ strTruthy r.author ∨ r.source = [] then
    let md := extractMeta text url
    { r with
      author := if strTruthy r.author then r.author else md.author,
      language := if strTruthy r.language then r.language else some md.language,
      source := if r.source ≠ [] then r.source else md.source }
  else r

/-- The mutable state of a `ParserAgent` instance.  The cache is keyed by
`hashlib.md5(url).hexdigest()`, passed in as the oracle parameter
`hashFn`. -/
structure ParserState where
  cache : List (PyStr × ParseResult)
  fallbackCount : Nat
  successCount : Nat
  totalCount : Nat
deriving DecidableEq

/-- The retry loop of `parse_with_retry` (lines 274–320): `llm n` is the
result of the `n`-th `_call_llm_parser` invocation, `fuel` the number of
attempts left.  Returns the result, the new state, and the number of LLM
invocations made. -/
def parseLoop (cleaner netlocOf : PyStr → PyStr) (extractMeta : PyStr → PyStr → ParsedMeta)
    (llm : Nat → Option LlmParsed) (text url urlHash : PyStr) (attempt : Nat) :
    Nat → ParserState → ParseResult × ParserState × Nat
  | 0, st =>
    let r := ruleBasedParse cleaner netlocOf text url
    let r := { r with success := true }
    (r, { st with fallbackCount := st.fallbackCount + 1,
                  successCount := st.successCount + 1,
                  cache := dset st.cache urlHash r }, 0)
  | fuel + 1, st =>
    match llm attempt with
    | some lp =>
      let r := fillMetadata extractMeta text url (resultFromLlm lp url)
      if validateResult r then
        (r, { st with successCount := st.successCount + 1,
                      cache := dset st.cache urlHash r }, 1)
      else
        let res := parseLoop cleaner netlocOf extractMeta llm text url urlHash
          (attempt + 1) fuel st
        (res.1, res.2.1, res.2.2 + 1)
    | none =>
      let res := parseLoop cleaner netlocOf extractMeta llm text url urlHash
        (attempt + 1) fuel st
      (res.1, res.2.1, res.2.2 + 1)

/-- `ParserAgent.parse_with_retry` with `max_retries` explicit (the source
defaults it to 3).  Returns the result, the new state, and the number of
LLM invocations. -/
def parseWithRetry (cleaner netlocOf : PyStr → PyStr)
    (extractMeta : PyStr → PyStr → ParsedMeta) (hashFn : PyStr → PyStr)
    (llm : Nat → Option LlmParsed) (maxRetries : Nat) (text url : PyStr)
    (st0 : ParserState) : ParseResult × ParserState × Nat :=
  let st := { st0 with totalCount := st0.totalCount + 1 }
  let urlHash := hashFn url
  match dget st.cache urlHash with
  | some cached => (cached, st, 0)
  | none =>
    if text = [] ∨ (pyStrip text).length = 0 then
      ({ title := ("Empty Content").codes, text := [], url := url,
         published_at := ("unknown").codes, source := ("unknown").codes,
         author := none, language := none, country := none,
         success := false, error_reason := some (("Empty content provided").codes) },
       st, 0)
    else parseLoop cleaner netlocOf extractMeta llm text url urlHash 0 maxRetries st

/-! ### Supporting lemmas for the Parse Agent claims -/

/-- `str.strip()` is idempotent. -/
lemma pyStrip_idem (l : PyStr) : pyStrip (pyStrip l) = pyStrip l := by
  have hrepr : ∀ m : PyStr,
      pyStrip m = List.rdropWhile isPyWs (List.dropWhile isPyWs m) := fun m => rfl
  rw [hrepr, hrepr]
  have hdw : List.dropWhile isPyWs (List.rdropWhile isPyWs (List.dropWhile isPyWs l)) =
      List.rdropWhile isPyWs (List.dropWhile isPyWs l) := by
    rcases hy : List.rdropWhile isPyWs (List.dropWhile isPyWs l) with _ | ⟨c, ys⟩
    · simp
    · obtain ⟨t, ht⟩ := List.rdropWhile_prefix isPyWs (List.dropWhile isPyWs l)
      rw [hy] at ht
      have hcws : isPyWs c = false := by
        have hne : List.dropWhile isPyWs l ≠ [] := by rw [← ht]; simp
        have hhd := List.head_dropWhile_not isPyWs l hne
        revert hhd hne
        rw [← ht]
        intro hne hhd
        exact hhd
      rw [List.dropWhile_cons, if_neg (by simp [hcws])]
  rw [hdw, List.rdropWhile_idempotent]

/-- The repaired title is nonempty and at least 2 characters long after
stripping. -/
lemma finalizeTitle_ok (cleanText title0 : PyStr) :
    finalizeTitle cleanText title0 ≠ [] ∧
    2 ≤ (pyStrip (finalizeTitle cleanText title0)).length := by
  unfold finalizeTitle
  split_ifs with h1 h2
  · exact ⟨by decide, by decide⟩
  · push_neg at h2
    constructor
    · intro hnil
      rw [hnil] at h2
      simp at h2
    · rw [pyStrip_idem]; omega
  · push_neg at h1
    exact ⟨h1.1, by omega⟩

/-- The title computed by the rule-based parser is nonempty and at least
2 characters long after stripping. -/
lemma ruleBasedTitleText_title_ok (cleanText0 : PyStr) :
    (ruleBasedTitleText cleanText0).1 ≠ [] ∧
    2 ≤ (pyStrip (ruleBasedTitleText cleanText0).1).length := by
  unfold ruleBasedTitleText
  split
  · exact ⟨by decide, by decide⟩
  · dsimp only
    exact finalizeTitle_ok _ _

/-- The retry loop always leaves its returned result in the cache under
the URL hash. -/
lemma parseLoop_caches (cleaner netlocOf : PyStr → PyStr)
    (extractMeta : PyStr → PyStr → ParsedMeta) (llm : Nat → Option LlmParsed)
    (text url urlHash : PyStr) :
    ∀ (fuel attempt : Nat) (st : ParserState),
      dget (parseLoop cleaner netlocOf extractMeta llm text url urlHash
          attempt fuel st).2.1.cache urlHash =
        some (parseLoop cleaner netlocOf extractMeta llm text url urlHash
          attempt fuel st).1 := by
  intro fuel
  induction fuel with
  | zero =>
    intro attempt st
    unfold parseLoop
    dsimp only
    exact dget_dset_self ..
  | succ fuel ih =>
    intro attempt st
    unfold parseLoop
    rcases hl : llm attempt with _ | lp
    · dsimp only
      exact ih (attempt + 1) st
    · dsimp only
      split_ifs with hval
      · dsimp only
        exact dget_dset_self ..
      · dsimp only
        exact ih (attempt + 1) st

/-- Whatever `parse_with_retry` leaves in the cache under the URL hash is
the result it returned. -/
lemma parseWithRetry_caches_result (cleaner netlocOf : PyStr → PyStr)
    (extractMeta : PyStr → PyStr → ParsedMeta) (hashFn : PyStr → PyStr)
    (llm : Nat → Option LlmParsed) (maxRetries : Nat) (text url : PyStr)
    (st0 : ParserState) (v : ParseResult)
    (hv : dget (parseWithRetry cleaner netlocOf extractMeta hashFn llm maxRetries
        text url st0).2.1.cache (hashFn url) = some v) :
    v = (parseWithRetry cleaner netlocOf extractMeta hashFn llm maxRetries
        text url st0).1 := by
  revert hv
  unfold parseWithRetry
  dsimp only
  rcases hcache : dget st0.cache (hashFn url) with _ | cached
  · intro hv
    try dsimp only at hv ⊢
    split_ifs at hv ⊢ with hempty
    · try dsimp only at hv
      rw [hcache] at hv
      exact absurd hv (by simp)
    · have hc := parseLoop_caches cleaner netlocOf extractMeta llm text url
        (hashFn url) maxRetries 0 { st0 with totalCount := st0.totalCount + 1 }
      rw [hv] at hc
      exact Option.some_inj.1 hc
  · intro hv
    try dsimp only at hv ⊢
    rw [hcache] at hv
    exact (Option.some_inj.1 hv).symm

/-- A cache hit short-circuits `parse_with_retry`: the cached result is
returned, only the total counter moves, and the LLM is not invoked. -/
lemma parseWithRetry_cache_hit (cleaner netlocOf : PyStr → PyStr)
    (extractMeta : PyStr → PyStr → ParsedMeta) (hashFn : PyStr → PyStr)
    (llm : Nat → Option LlmParsed) (maxRetries : Nat) (text url : PyStr)
    (st1 : ParserState) (w : ParseResult)
    (h1 : dget st1.cache (hashFn url) = some w) :
    parseWithRetry cleaner netlocOf extractMeta hashFn llm maxRetries text url st1 =
      (w, { st1 with totalCount := st1.totalCount + 1 }, 0) := by
  unfold parseWithRetry
  dsimp only
  rw [h1]

/-! ### Claim C6 -/

/-- The fallback run refuting C6: the LLM fails on all three attempts for
a text whose first sentence contains an NSFW marker word. -/
def parserRunC6 : ParseResult × ParserState × Nat :=
  parseWithRetry id (fun _ => []) (fun _ _ => ⟨none, ("en").codes, []⟩) id
    (fun _ => none) 3 (("porn content here. more text.").codes)
    (("http://x").codes) ⟨[], 0, 0, 0⟩

/-- C6 is false as stated: the rule-based fallback result is returned with
`success = True` but is never passed through `_validate_result`; here its
title/body contain the NSFW marker `porn`, so the validation policy
rejects it. -/
theorem parser_fallback_validation_claim_false :
    parserRunC6.1.success = true ∧
    validateResult parserRunC6.1 = false ∧
    hasSub (("porn").codes)
      (pyLowerStr (parserRunC6.1.title ++ [32] ++ parserRunC6.1.text)) = true := by
  refine ⟨by decide, by decide, by decide⟩

/-- C6 amended: the fallback `ParseResult` always satisfies the title part
of the validation policy — its title is nonempty and at least 2 characters
after stripping — but the spam/NSFW marker check is not applied to
fallback results, which are returned with `success = True` without
revalidation and may contain marker words. -/
theorem parser_fallback_title_ok (cleaner netlocOf : PyStr → PyStr)
    (content url : PyStr) :
    (ruleBasedParse cleaner netlocOf content url).title ≠ [] ∧
    2 ≤ (pyStrip (ruleBasedParse cleaner netlocOf content url).title).length := by
  unfold ruleBasedParse
  dsimp only
  exact ruleBasedTitleText_title_ok _

/-! ### Claim C7 -/

/-- C7: once a first `parse_with_retry` call has populated the cache for a
URL, any value cached under that URL's hash is exactly the first call's
result, and a second call with the same URL returns it unchanged (with
only the total counter bumped) while invoking the LLM zero times — for
any second text and any second LLM behaviour. -/
theorem parser_cache_idempotent (cleaner netlocOf : PyStr → PyStr)
    (extractMeta : PyStr → PyStr → ParsedMeta) (hashFn : PyStr → PyStr)
    (llm llm2 : Nat → Option LlmParsed) (maxRetries : Nat) (text text2 url : PyStr)
    (st0 : ParserState) (v : ParseResult)
    (hv : dget (parseWithRetry cleaner netlocOf extractMeta hashFn llm maxRetries
        text url st0).2.1.cache (hashFn url) = some v) :
    v = (parseWithRetry cleaner netlocOf extractMeta hashFn llm maxRetries
        text url st0).1 ∧
    parseWithRetry cleaner netlocOf extractMeta hashFn llm2 maxRetries text2 url
        (parseWithRetry cleaner netlocOf extractMeta hashFn llm maxRetries
          text url st0).2.1 =
      ((parseWithRetry cleaner netlocOf extractMeta hashFn llm maxRetries
          text url st0).1,
       { (parseWithRetry cleaner netlocOf extractMeta hashFn llm maxRetries
            text url st0).2.1 with
         totalCount := (parseWithRetry cleaner netlocOf extractMeta hashFn llm
            maxRetries text url st0).2.1.totalCount + 1 }, 0) := by
  have hve := parseWithRetry_caches_result cleaner netlocOf extractMeta hashFn llm
    maxRetries text url st0 v hv
  refine ⟨hve, ?_⟩
  exact parseWithRetry_cache_hit cleaner netlocOf extractMeta hashFn llm2 maxRetries
    text2 url _ _ (hve ▸ hv)

/-- Witness for C7: a first call that falls back to the rule-based parser
(the LLM errors on all attempts) populates the cache; the second call with
a different text and a *succeeding* LLM still returns the first call's
result with zero LLM invocations. -/
theorem parser_cache_idempotent_witness :
    (parseWithRetry id (fun _ => []) (fun _ _ => ⟨none, ("en").codes, []⟩) id
        (fun _ => none) 3 (("hello there. more words here.").codes) (("u").codes)
        ⟨[], 0, 0, 0⟩).1 =
      (parseWithRetry id (fun _ => []) (fun _ _ => ⟨none, ("en").codes, []⟩) id
        (fun _ => none) 3 (("hello there. more words here.").codes) (("u").codes)
        ⟨[], 0, 0, 0⟩).1 ∧
    parseWithRetry id (fun _ => []) (fun _ _ => ⟨none, ("en").codes, []⟩) id
        (fun _ => some ⟨some (("Other title").codes), some (("other body").codes),
          none, none, none, none, none⟩) 3 (("changed text").codes) (("u").codes)
        (parseWithRetry id (fun _ => []) (fun _ _ => ⟨none, ("en").codes, []⟩) id
          (fun _ => none) 3 (("hello there. more words here.").codes) (("u").codes)
          ⟨[], 0, 0, 0⟩).2.1 =
      ((parseWithRetry id (fun _ => []) (fun _ _ => ⟨none, ("en").codes, []⟩) id
          (fun _ => none) 3 (("hello there. more words here.").codes) (("u").codes)
          ⟨[], 0, 0, 0⟩).1,
       { (parseWithRetry id (fun _ => []) (fun _ _ => ⟨none, ("en").codes, []⟩) id
            (fun _ => none) 3 (("hello there. more words here.").codes) (("u").codes)
            ⟨[], 0, 0, 0⟩).2.1 with
         totalCount := (parseWithRetry id (fun _ => []) (fun _ _ => ⟨none, ("en").codes, []⟩)
            id (fun _ => none) 3 (("hello there. more words here.").codes) (("u").codes)
            ⟨[], 0, 0, 0⟩).2.1.totalCount + 1 }, 0) :=
  parser_cache_idempotent id (fun _ => []) (fun _ _ => ⟨none, ("en").codes, []⟩) id
    (fun _ => none)
    (fun _ => some ⟨some (("Other title").codes), some (("other body").codes),
      none, none, none, none, none⟩)
    3 (("hello there. more words here.").codes) (("changed text").codes) (("u").codes)
    ⟨[], 0, 0, 0⟩ _ (by decide)

/-! ## JSON extraction in `ParserAgent._call_llm_parser`

`json.loads` is embedded as `jsonLoads` over the JSON grammar Python's
`json` module accepts (objects, arrays, strings with escapes, numbers with
the `-?(0|[1-9]\d*)(\.\d+)?([eE][+-]?\d+)?` lexeme plus the
`NaN`/`Infinity`/`-Infinity` constants, `true`/`false`/`null`, strict
rejection of raw control characters in strings).  Numbers are represented
by their lexeme and `\uXXXX` escapes by their code units, which is
faithful for every comparison the claims make. -/

/-- A parsed JSON value. -/
inductive Json where
  | null
  | bool (b : Bool)
  | num (raw : PyStr)
  | str (s : PyStr)
  | arr (xs : List Json)
  | obj (kvs : List (PyStr × Json))

/-- JSON whitespace (`json.decoder.WHITESPACE`): space, tab, LF, CR. -/
def isJsonWs (c : Nat) : Bool := c = 32 || c = 9 || c = 10 || c = 13

/-- Skip JSON whitespace. -/
def skipJsonWs (s : PyStr) : PyStr := s.dropWhile isJsonWs

/-- Hexadecimal digit value. -/
def hexVal (c : Nat) : Option Nat :=
  if 48 ≤ c ∧ c ≤ 57 then some (c - 48)
  else if 97 ≤ c ∧ c ≤ 102 then some (c - 87)
  else if 65 ≤ c ∧ c ≤ 70 then some (c - 55)
  else none

/-- Decode a one-character escape. -/
def escChar (c : Nat) : Option Nat :=
  if c = 34 then some 34        -- "
  else if c = 92 then some 92   -- backslash
  else if c = 47 then some 47   -- /
  else if c = 98 then some 8    -- \b
  else if c = 102 then some 12  -- \f
  else if c = 110 then some 10  -- \n
  else if c = 114 then some 13  -- \r
  else if c = 116 then some 9   -- \t
  else none

/-- Parse a JSON string body (after the opening quote), returning the
decoded contents and the remainder after the closing quote.  Surrogate
pairs are kept as their code units. -/
def parseJString : PyStr → Option (PyStr × PyStr)
  | [] => none
  | c :: rest =>
    if c = 34 then some ([], rest)
    else if c = 92 then
      match rest with
      | [] => none
      | e :: rest2 =>
        if e = 117 then
          match rest2 with
          | h1 :: h2 :: h3 :: h4 :: rest3 =>
            match hexVal h1, hexVal h2, hexVal h3, hexVal h4 with
            | some a, some b, some c', some d =>
              (parseJString rest3).map fun p =>
                ((a * 4096 + b * 256 + c' * 16 + d) :: p.1, p.2)
            | _, _, _, _ => none
          | _ => none
        else
          match escChar e with
          | some ec => (parseJString rest2).map fun p => (ec :: p.1, p.2)
          | none => none
    else if c < 32 then none
    else (parseJString rest).map fun p => (c :: p.1, p.2)

/-- A decimal digit. -/
def isDigitCode (c : Nat) : Bool := 48 ≤ c && c ≤ 57

/-- Parse a JSON number lexeme (`NUMBER_RE` of `json.scanner`), returning
the lexeme and the remainder. -/
def parseJNum (s : PyStr) : Option (PyStr × PyStr) :=
  let core := fun (t : PyStr) =>
    (match t with
     | 48 :: rest => some ([48], rest)
     | c :: rest =>
       if isDigitCode c then
         some (c :: rest.takeWhile isDigitCode, rest.dropWhile isDigitCode)
       else none
     | [] => none : Option (PyStr × PyStr))
  let intPart := fun (t : PyStr) (neg : Bool) =>
    (core t).map fun p => (if neg then 45 :: p.1 else p.1, p.2)
  let afterInt :=
    match s with
    | 45 :: rest => intPart rest true
    | _ => intPart s false
  match afterInt with
  | none => none
  | some (tok, r1) =>
    let withFrac :=
      match r1 with
      | 46 :: r2 =>
        let ds := r2.takeWhile isDigitCode
        if ds = [] then none else some (tok ++ 46 :: ds, r2.dropWhile isDigitCode)
      | _ => some (tok, r1)
    match withFrac with
    | none => none
    | some (tok2, r3) =>
      match r3 with
      | e :: r4 =>
        if e = 101 ∨ e = 69 then
          let sr :=
            match r4 with
            | 43 :: r5 => ([43], r5)
            | 45 :: r5 => ([45], r5)
            | _ => (([] : PyStr), r4)
          let ds := sr.2.takeWhile isDigitCode
          if ds = [] then none
          else some (tok2 ++ e :: sr.1 ++ ds, sr.2.dropWhile isDigitCode)
        else some (tok2, r3)
      | [] => some (tok2, r3)

mutual

/-- Parse a JSON value at the head of the input (no leading whitespace);
`fuel` bounds the nesting depth. -/
def parseVal : Nat → PyStr → Option (Json × PyStr)
  | 0, _ => none
  | fuel + 1, s =>
    match s with
    | [] => none
    | c :: rest =>
      if c = 34 then (parseJString rest).map fun p => (.str p.1, p.2)
      else if c = 123 then
        match skipJsonWs rest with
        | 125 :: r => some (.obj [], r)
        | s1 => (parseMembers fuel s1).map fun p => (.obj p.1, p.2)
      else if c = 91 then
        match skipJsonWs rest with
        | 93 :: r => some (.arr [], r)
        | s1 => (parseElements fuel s1).map fun p => (.arr p.1, p.2)
      else if ("true").codes.isPrefixOf s then some (.bool true, s.drop 4)
      else if ("false").codes.isPrefixOf s then some (.bool false, s.drop 5)
      else if ("null").codes.isPrefixOf s then some (.null, s.drop 4)
      else if ("NaN").codes.isPrefixOf s then some (.num (("NaN").codes), s.drop 3)
      else if ("Infinity").codes.isPrefixOf s then
        some (.num (("Infinity").codes), s.drop 8)
      else if ("-Infinity").codes.isPrefixOf s then
        some (.num (("-Infinity").codes), s.drop 9)
      else (parseJNum s).map fun p => (.num p.1, p.2)

/-- Parse the members of an object, positioned at a key. -/
def parseMembers : Nat → PyStr → Option (List (PyStr × Json) × PyStr)
  | 0, _ => none
  | fuel + 1, s =>
    match s with
    | 34 :: rest =>
      match parseJString rest with
      | none => none
      | some (key, r1) =>
        match skipJsonWs r1 with
        | 58 :: r3 =>
          match parseVal fuel (skipJsonWs r3) with
          | none => none
          | some (v, r4) =>
            match skipJsonWs r4 with
            | 44 :: r6 =>
              (parseMembers fuel (skipJsonWs r6)).map fun p => ((key, v) :: p.1, p.2)
            | 125 :: r6 => some ([(key, v)], r6)
            | _ => none
        | _ => none
    | _ => none

/-- Parse the elements of an array, positioned at a value. -/
def parseElements : Nat → PyStr → Option (List Json × PyStr)
  | 0, _ => none
  | fuel + 1, s =>
    match parseVal fuel s with
    | none => none
    | some (v, r1) =>
      match skipJsonWs r1 with
      | 44 :: r3 => (parseElements fuel (skipJsonWs r3)).map fun p => (v :: p.1, p.2)
      | 93 :: r3 => some ([v], r3)
      | _ => none

end

/-- `json.loads`: parse a complete document, rejecting trailing content. -/
def jsonLoads (s : PyStr) : Option Json :=
  match parseVal (s.length + 1) (skipJsonWs s) with
  | some (v, rest) => if skipJsonWs rest = [] then some v else none
  | none => none

/-- The inner brace-balancing scan of `_call_llm_parser` (lines 224–237):
from depth `d`, emit the consumed text once a `}` returns the raw count to
zero (string contents are not treated specially, as in the source). -/
def scanAux : Nat → PyStr → Option PyStr
  | _, [] => none
  | d, c :: rest =>
    if c = 123 then (scanAux (d + 1) rest).map (c :: ·)
    else if c = 125 then
      if d = 1 then some [c]
      else (scanAux (d - 1) rest).map (c :: ·)
    else (scanAux d rest).map (c :: ·)

/-- The balanced chunk starting at an opening brace, if the count ever
returns to zero. -/
def scanFrom : PyStr → Option PyStr
  | 123 :: rest => (scanAux 1 rest).map (123 :: ·)
  | _ => none

/-- All balanced chunks, one per `{` position, left to right
(`start_indices` loop of the source). -/
def braceCandidates (response : PyStr) : List PyStr :=
  response.tails.filterMap scanFrom

/-- The source's `found_jsons`: balanced chunks accepted by `json.loads`. -/
def foundJsons (response : PyStr) : List PyStr :=
  (braceCandidates response).filter fun c => (jsonLoads c).isSome

/-- Skip `\s*` of the fence regex (same class as `str.strip` whitespace). -/
def skipReWs (s : PyStr) : PyStr := s.dropWhile isPyWs

/-- Does `\s*` followed by a closing fence start here? -/
def isFenceNext (s : PyStr) : Bool := ("```").codes.isPrefixOf (skipReWs s)

/-- The lazy group body of the fence regex: scan to the first `}` that is
followed by `\s*` and a closing fence. -/
def grabBody : PyStr → Option PyStr
  | [] => none
  | c :: rest =>
    if c = 125 then
      if isFenceNext rest then some [c]
      else (grabBody rest).map (c :: ·)
    else (grabBody rest).map (c :: ·)

/-- Attempt the fence regex match anchored at this position. -/
def tryFenceAt (s : PyStr) : Option PyStr :=
  if ("```json").codes.isPrefixOf s then
    match skipReWs (s.drop 7) with
    | 123 :: rest => (grabBody rest).map (123 :: ·)
    | _ => none
  else none

/-- `re.search` for the fence pattern: the leftmost anchored match. -/
def fenceSearch : PyStr → Option PyStr
  | [] => none
  | c :: rest =>
    match tryFenceAt (c :: rest) with
    | some g => some g
    | none => fenceSearch rest

/-- The JSON-extraction logic of `_call_llm_parser` (lines 214–248): a
fenced group is preferred (and its parse failure yields `None`); otherwise
the *last* entry of `found_jsons` (`found_jsons[-1]`) is parsed. -/
def extractJson (response : PyStr) : Option Json :=
  match fenceSearch response with
  | some g => jsonLoads g
  | none =>
    match (foundJsons response).getLast? with
    | some jsonStr => jsonLoads jsonStr
    | none => none

/-! ### Supporting lemmas for Claim C3 -/

/-- Dropping over an all-satisfying prefix skips it entirely. -/
lemma dropWhile_append_all {p : Nat → Bool} :
    ∀ (a b : PyStr), (∀ c ∈ a, p c = true) →
      List.dropWhile p (a ++ b) = List.dropWhile p b := by
  intro a
  induction a with
  | nil => intro b _; rfl
  | cons c a' ih =>
    intro b h
    rw [List.cons_append, List.dropWhile_cons, if_pos (by simp [h c (by simp)])]
    exact ih b fun x hx => h x (by simp [hx])

/-- When the left part contains a failing element, dropping stops inside
it. -/
lemma dropWhile_append_stops {p : Nat → Bool} :
    ∀ (a b : PyStr), (∃ x ∈ a, p x = false) →
      List.dropWhile p (a ++ b) = List.dropWhile p a ++ b ∧
      List.dropWhile p a ≠ [] := by
  intro a
  induction a with
  | nil => intro b h; simp at h
  | cons c a' ih =>
    intro b h
    by_cases hc : p c = true
    · obtain ⟨x, hx, hpx⟩ := h
      rcases List.mem_cons.1 hx with rfl | hx'
      · rw [hc] at hpx; cases hpx
      · have := ih b ⟨x, hx', hpx⟩
        rw [List.cons_append, List.dropWhile_cons, if_pos (by simp [hc]),
          List.dropWhile_cons, if_pos (by simp [hc])]
        exact this
    · rw [List.cons_append, List.dropWhile_cons, if_neg (by simpa using hc),
        List.dropWhile_cons, if_neg (by simpa using hc)]
      exact ⟨rfl, by simp⟩

/-- A closing fence cannot start at a position whose first characters,
after whitespace, come from backtick-free text containing a non-space
character. -/
lemma isFenceNext_false_of_text (a b : PyStr) (hnb : 96 ∉ a)
    (hx : ∃ x ∈ a, isPyWs x = false) : isFenceNext (a ++ b) = false := by
  obtain ⟨hdrop, hne⟩ := dropWhile_append_stops a b hx
  unfold isFenceNext skipReWs
  rw [hdrop]
  rcases hd : List.dropWhile isPyWs a with _ | ⟨f, t⟩
  · exact absurd hd hne
  · have hfa : f ∈ a := by
      have hsuf : List.dropWhile isPyWs a <:+ a := List.dropWhile_suffix _
      exact hsuf.subset (by rw [hd]; simp)
    have hf96 : f ≠ 96 := fun h => hnb (h ▸ hfa)
    show List.isPrefixOf _ (f :: (t ++ b)) = false
    have : (("```").codes).isPrefixOf (f :: (t ++ b)) = true → False := by
      intro hpre
      have := List.isPrefixOf_iff_prefix.mp hpre
      obtain ⟨u, hu⟩ := this
      have : (96 : Nat) = f := by
        have := congrArg (fun l => l.head?) hu
        simpa [String.codes] using this
      exact hf96 this.symm
    revert this
    cases hpre : (("```").codes).isPrefixOf (f :: (t ++ b)) <;> simp

/-- The lazy fence-group scan stops exactly at the closing brace of a
backtick-free body followed by whitespace and a closing fence. -/
lemma grabBody_exact (ws2 fenceTail : PyStr) (hws2 : ∀ c ∈ ws2, isPyWs c = true) :
    ∀ (mid : PyStr), 96 ∉ mid →
      grabBody (mid ++ 125 :: (ws2 ++ (("```").codes ++ fenceTail))) =
        some (mid ++ [125]) := by
  have hfence : isFenceNext (ws2 ++ (("```").codes ++ fenceTail)) = true := by
    unfold isFenceNext skipReWs
    rw [dropWhile_append_all ws2 _ hws2]
    rw [show ("```").codes = [96, 96, 96] from rfl]
    rw [List.cons_append, List.dropWhile_cons]
    simp only [if_neg (by decide : ¬ (isPyWs 96 = true))]
    exact List.isPrefixOf_iff_prefix.mpr ⟨fenceTail, by simp⟩
  intro mid
  induction mid with
  | nil =>
    intro _
    rw [List.nil_append]
    show grabBody (125 :: (ws2 ++ (("```").codes ++ fenceTail))) = some [125]
    simp only [grabBody]
    rw [if_pos trivial, if_pos hfence]
  | cons c mid' ih =>
    intro h96
    have h96' : 96 ∉ mid' := fun h => h96 (List.mem_cons_of_mem c h)
    show grabBody (c :: (mid' ++ 125 :: (ws2 ++ (("```").codes ++ fenceTail)))) = _
    by_cases hc : c = 125
    · subst hc
      have hnofence :
          isFenceNext (mid' ++ 125 :: (ws2 ++ (("```").codes ++ fenceTail))) = false := by
        have hsplit : mid' ++ 125 :: (ws2 ++ (("```").codes ++ fenceTail)) =
            (mid' ++ [125]) ++ (ws2 ++ (("```").codes ++ fenceTail)) := by simp
        rw [hsplit]
        refine isFenceNext_false_of_text _ _ ?_ ⟨125, by simp, by decide⟩
        intro hmem
        rcases List.mem_append.1 hmem with h | h
        · exact h96' h
        · simp at h
      simp only [grabBody]
      rw [if_pos trivial, if_neg (by simp [hnofence])]
      rw [ih h96']
      rfl
    · simp only [grabBody]
      rw [if_neg hc]
      rw [ih h96']
      rfl

/-- The fence regex matches the whole fenced block at the start of the
response, capturing exactly the record. -/
lemma fenceSearch_exact (ws1 ws2 mid prose : PyStr)
    (hws1 : ∀ c ∈ ws1, isPyWs c = true) (hws2 : ∀ c ∈ ws2, isPyWs c = true)
    (h96 : 96 ∉ mid) :
    fenceSearch (("```json").codes ++ (ws1 ++ ((123 :: (mid ++ [125])) ++
        (ws2 ++ (("```").codes ++ prose))))) = some (123 :: (mid ++ [125])) := by
  have htry : tryFenceAt (("```json").codes ++ (ws1 ++ ((123 :: (mid ++ [125])) ++
      (ws2 ++ (("```").codes ++ prose))))) = some (123 :: (mid ++ [125])) := by
    unfold tryFenceAt
    rw [if_pos (List.isPrefixOf_iff_prefix.mpr ⟨_, rfl⟩)]
    rw [show (7 : Nat) = ("```json").codes.length from rfl, List.drop_left]
    unfold skipReWs
    rw [dropWhile_append_all ws1 _ hws1]
    rw [List.cons_append, List.dropWhile_cons]
    simp only [if_neg (by decide : ¬ (isPyWs 123 = true))]
    have hassoc : (mid ++ [125]) ++ (ws2 ++ (("```").codes ++ prose)) =
        mid ++ 125 :: (ws2 ++ (("```").codes ++ prose)) := by simp
    rw [hassoc, grabBody_exact ws2 prose hws2 mid h96]
    rfl
  rcases hresp : ("```json").codes ++ (ws1 ++ ((123 :: (mid ++ [125])) ++
      (ws2 ++ (("```").codes ++ prose)))) with _ | ⟨c, rest⟩
  · exact absurd hresp (by simp [String.codes])
  · rw [hresp] at htry
    unfold fenceSearch
    rw [htry]

/-! ### Claim C3 -/

/-- The two-record response refuting C3. -/
def responseC3 : PyStr := ("\x7b\"a\": 1\x7d \x7b\"b\": 2\x7d").codes

/-- C3 is false as stated: for a response with no fenced block and two
valid top-level records, the extractor takes `found_jsons[-1]` — the
*last* balanced well-formed record — not the first: here it returns the
parse of `{"b": 2}` although `{"a": 1}` comes first and parses fine. -/
theorem parser_json_first_record_claim_false :
    fenceSearch responseC3 = none ∧
    foundJsons responseC3 = [("\x7b\"a\": 1\x7d").codes, ("\x7b\"b\": 2\x7d").codes] ∧
    extractJson responseC3 = some (Json.obj [(("b").codes, Json.num (("2").codes))]) ∧
    jsonLoads (("\x7b\"a\": 1\x7d").codes) =
      some (Json.obj [(("a").codes, Json.num (("1").codes))]) ∧
    extractJson responseC3 ≠ jsonLoads (("\x7b\"a\": 1\x7d").codes) := by
  refine ⟨rfl, rfl, rfl, rfl, ?_⟩
  intro h
  have h2 : (some (Json.obj [(("b").codes, Json.num (("2").codes))]) : Option Json) =
      some (Json.obj [(("a").codes, Json.num (("1").codes))]) := h
  injection h2 with h3
  injection h3 with h4
  injection h4 with h5 h6
  injection h5 with h7 h8
  exact absurd h7 (by decide)

/-- C3 amended: with no fenced block the extractor returns the parsed
value of the *last* fully-balanced, well-formed record found scanning left
to right (one candidate per opening brace, each scanned to its first raw
balance point); for a fenced record followed by trailing prose it returns
exactly the fenced record's parsed value. -/
theorem parser_json_extraction_last_and_fenced :
    (∀ response j, fenceSearch response = none →
        (foundJsons response).getLast? = some j →
        extractJson response = jsonLoads j) ∧
    (∀ ws1 mid ws2 prose,
        (∀ c ∈ ws1, isPyWs c = true) → (∀ c ∈ ws2, isPyWs c = true) → 96 ∉ mid →
        extractJson (("```json").codes ++ (ws1 ++ ((123 :: (mid ++ [125])) ++
            (ws2 ++ (("```").codes ++ prose))))) =
          jsonLoads (123 :: (mid ++ [125]))) := by
  constructor
  · intro response j h1 h2
    unfold extractJson
    rw [h1, h2]
  · intro ws1 mid ws2 prose hws1 hws2 h96
    unfold extractJson
    rw [fenceSearch_exact ws1 ws2 mid prose hws1 hws2 h96]

/-- Witness for C3: the two-record response yields the last record's
parse, and a concrete fenced response with trailing prose yields the
fenced record's parse. -/
theorem parser_json_extraction_witness :
    extractJson responseC3 = jsonLoads (("\x7b\"b\": 2\x7d").codes) ∧
    extractJson (("```json").codes ++ ([10] ++ ((123 :: ((("\"t\": 1").codes) ++ [125])) ++
        ([10] ++ (("```").codes ++ (" trailing prose").codes))))) =
      jsonLoads (123 :: ((("\"t\": 1").codes) ++ [125])) :=
  ⟨parser_json_extraction_last_and_fenced.1 responseC3 (("\x7b\"b\": 2\x7d").codes) rfl rfl,
   parser_json_extraction_last_and_fenced.2 [10] (("\"t\": 1").codes) [10]
     ((" trailing prose").codes) (by decide) (by decide) (by decide)⟩

/-! ## Render Agent (`src/agents/render_agent.py`, `MultimodalDeliveryAgent`) -/

/-- The device types. -/
inductive DeviceType where
  | mobile | desktop | tablet
deriving DecidableEq

/-- The tone styles. -/
inductive ToneStyle where
  | formal | friendly | ironic | neutral
deriving DecidableEq

/-- The output formats. -/
inductive OutputFormat where
  | markdown | plainText | html | telegram
deriving DecidableEq

/-- A letter for `str.title()` word boundaries, over the character ranges
this repository manipulates (ASCII and Cyrillic). -/
def isPyAlpha (c : Nat) : Bool :=
  (65 ≤ c && c ≤ 90) || (97 ≤ c && c ≤ 122) || (1040 ≤ c && c ≤ 1103) ||
    c = 1025 || c = 1105

/-- Helper for `str.title()`: the flag records whether the previous
character was a letter. -/
def pyTitleGo (prevAlpha : Bool) : PyStr → PyStr
  | [] => []
  | c :: rest =>
    let isA := isPyAlpha c
    (if isA then (if prevAlpha then pyLowerChar c else pyUpperChar c) else c) ::
      pyTitleGo isA rest

/-- Python `str.title()`. -/
def pyTitle (s : PyStr) : PyStr := pyTitleGo false s

/-- `_determine_device_type`, on `platform_info.get("user_agent", "")`. -/
def determineDeviceType (userAgent : PyStr) : DeviceType :=
  let agent := pyLowerStr userAgent
  if hasSub (("mobile").codes) agent || hasSub (("android").codes) agent
      || hasSub (("iphone").codes) agent then .mobile
  else if hasSub (("tablet").codes) agent then .tablet
  else .desktop

/-- `OutputFormat(value)`: `none` models the `ValueError` raised on an
unknown format string. -/
def outputFormatOf (v : PyStr) : Option OutputFormat :=
  if v = ("markdown").codes then some .markdown
  else if v = ("plain_text").codes then some .plainText
  else if v = ("html").codes then some .html
  else if v = ("telegram").codes then some .telegram
  else none

/-- `ToneStyle(tone) if tone in [e.value for e in ToneStyle] else
ToneStyle.NEUTRAL` (line 260). -/
def toneStyleOf (tone : PyStr) : ToneStyle :=
  if tone = ("formal").codes then .formal
  else if tone = ("friendly").codes then .friendly
  else if tone = ("ironic").codes then .ironic
  else .neutral

/-- The truncation loop of `_apply_length_optimization`. -/
def lenOptLoop : List PyStr → Nat → List PyStr
  | [], _ => []
  | s :: rest, len =>
    if 250 < len + s.length then [pyStrip s ++ ("...").codes]
    else pyStrip s :: lenOptLoop rest (len + s.length + 1)

/-- `_apply_length_optimization`. -/
def applyLengthOptimization (summary : PyStr) (deviceType : DeviceType) : PyStr :=
  if deviceType = .mobile ∧ 300 < summary.length then
    List.intercalate ((". ").codes) (lenOptLoop (pySplitChar 46 summary) 0)
  else summary

/-- The `category_emojis` table. -/
def categoryEmojis : List (PyStr × List PyStr) :=
  [(("technology").codes, [("💻").codes, ("📱").codes, ("🤖").codes, ("🔗").codes]),
   (("business").codes, [("💼").codes, ("💰").codes, ("📈").codes, ("🏢").codes]),
   (("science").codes, [("🔬").codes, ("🔭").codes, ("🧬").codes, ("⚛️").codes]),
   (("culture").codes, [("🎭").codes, ("🎨").codes, ("🎬").codes, ("🎤").codes]),
   (("politics").codes, [("🏛️").codes, ("📜").codes, ("🗳️").codes, ("⚖️").codes]),
   (("sports").codes, [("⚽").codes, ("🏀").codes, ("🏈").codes, ("🎾").codes]),
   (("health").codes, [("🏥").codes, ("💊").codes, ("🌡️").codes, ("⚕️").codes]),
   (("general").codes, [("📰").codes, ("🗞️").codes, ("📋").codes, ("🎯").codes])]

/-- The `tone_emojis` table. -/
def toneEmojis : ToneStyle → List PyStr
  | .formal => [("📋").codes, ("📑").codes, ("✅").codes]
  | .friendly => [("😊").codes, ("👍").codes, ("🤗").codes]
  | .ironic => [("😏").codes, ("🤔").codes, ("🙄").codes, ("😅").codes]
  | .neutral => [("🔹").codes, ("🔸").codes, ("▪️").codes]

/-- `_get_appropriate_emoji`. -/
def getAppropriateEmoji (category : PyStr) (tone : ToneStyle) : PyStr :=
  let catList := (dget categoryEmojis (pyLowerStr category)).getD
    ((dget categoryEmojis (("general").codes)).getD [])
  if tone = .neutral ∨ tone = .formal then catList.headD (("🔹").codes)
  else (toneEmojis tone).headD (("🔹").codes)

/-- The `irony_phrases` list. -/
def ironyPhrases : List PyStr :=
  [("(очередная сенсация)").codes, ("(наверняка)").codes, ("(вот это да)").codes,
   ("(не иначе как)").codes]

/-- `_apply_tone_style` minus its metrics bump; `random.choice` is the
oracle parameter `pick`. -/
def applyToneStyle (pick : List PyStr → PyStr) (content : PyStr)
    (tone : ToneStyle) : PyStr :=
  match tone with
  | .formal => content.map fun c => if c = 33 ∨ c = 63 then 46 else c
  | .friendly => if ¬ 33 ∈ content.take 20 then content ++ [33] else content
  | .ironic => content ++ [32] ++ pick ironyPhrases
  | .neutral => content

/-- `_create_dynamic_buttons`. -/
def createDynamicButtons (tags : List PyStr) : PyStr :=
  match tags with
  | [] => []
  | t0 :: _ =>
    List.intercalate [10]
      [("🔍 Похожие по #").codes ++ t0 ++ (": `/search ").codes ++ t0 ++ [96],
       ("🔖 В закладки: `/bookmark`").codes,
       ("📤 Поделиться: `/share`").codes]

/-- `_format_for_platform` minus its metrics bump.  The markdown-rewriting
`re.sub` calls of the `plain_text` and `html` branches are the oracle
parameters `plainFmt`/`htmlFmt`; the Telegram branch truncates contents
longer than 4096 to the first 4090 characters plus `... (continued)`. -/
def formatForPlatform (plainFmt htmlFmt : PyStr → PyStr) (content : PyStr) :
    OutputFormat → PyStr
  | .plainText => plainFmt content
  | .html => (htmlFmt content).flatMap fun c => if c = 10 then ("<br>").codes else [c]
  | .telegram =>
    if 4096 < content.length then content.take 4090 ++ ("... (continued)").codes
    else content
  | .markdown => content

/-- Python `content.split("\n\n")`: leftmost non-overlapping split on the
double newline. -/
def splitNl2 : PyStr → List PyStr
  | [] => [[]]
  | [c] => [[c]]
  | c1 :: c2 :: rest =>
    if c1 = 10 ∧ c2 = 10 then [] :: splitNl2 rest
    else
      match splitNl2 (c2 :: rest) with
      | [] => [[c1]]
      | h :: t => (c1 :: h) :: t

/-- The paragraph-accumulation loop of `_optimize_for_telegram_limits`. -/
def telegramSplitLoop : List PyStr → PyStr → List PyStr
  | [], current => if pyStrip current ≠ [] then [pyStrip current] else []
  | p :: rest, current =>
    if current.length + p.length ≤ 4096 then
      telegramSplitLoop rest (current ++ p ++ [10, 10])
    else if current ≠ [] then
      pyStrip current :: telegramSplitLoop rest (p ++ [10, 10])
    else telegramSplitLoop rest (p ++ [10, 10])

/-- `_optimize_for_telegram_limits`. -/
def optimizeForTelegramLimits (content : PyStr) : List PyStr :=
  if content.length ≤ 4096 then [content]
  else telegramSplitLoop (splitNl2 content) []

/-- The message assembly of `render_news_with_enhancements` (lines
252–292): the base parts joined by newlines, the tone applied, and the
dynamic buttons appended — the "assembled message" before platform
formatting. -/
def assembleMessage (pick : List PyStr → PyStr) (title summary category : PyStr)
    (tags : List PyStr) (url : PyStr)
    (userPreferences platformInfo : List (PyStr × PyStr)) (tone : PyStr) : PyStr :=
  let userAgent := (dget platformInfo (("user_agent").codes)).getD []
  let deviceType := determineDeviceType userAgent
  let toneStyle := toneStyleOf tone
  let optimizedSummary := applyLengthOptimization summary deviceType
  let emoji := getAppropriateEmoji category toneStyle
  let tagsStr :=
    if tags ≠ [] then List.intercalate [32] (tags.map fun t => 35 :: t) else []
  let messageParts :=
    [emoji ++ [32] ++ ("**").codes ++ pyTitle category ++ ("**").codes, [],
     ("**").codes ++ title ++ ("**").codes, [], optimizedSummary]
  let messageParts := if tagsStr ≠ [] then messageParts ++ [[], tagsStr] else messageParts
  let messageParts :=
    messageParts ++ [[], ("🌐 [Читать оригинал](").codes ++ url ++ [41]]
  let contentWithTone := applyToneStyle pick (List.intercalate [10] messageParts) toneStyle
  let buttons := createDynamicButtons tags
  if buttons ≠ [] then contentWithTone ++ [10, 10] ++ buttons else contentWithTone

/-- `render_news_with_enhancements` (metrics omitted): assembles the
message, applies platform formatting, and splits for Telegram limits;
`none` models the `ValueError` of `OutputFormat(...)` on an unknown
format preference (the default is `"telegram"`). -/
def renderNews (pick : List PyStr → PyStr) (plainFmt htmlFmt : PyStr → PyStr)
    (title summary category : PyStr) (tags : List PyStr) (url : PyStr)
    (userPreferences platformInfo : List (PyStr × PyStr)) (tone : PyStr) :
    Option (List PyStr) :=
  match outputFormatOf ((dget userPreferences (("format").codes)).getD
      (("telegram").codes)) with
  | none => none
  | some outputFormat =>
    let contentWithTone :=
      assembleMessage pick title summary category tags url userPreferences
        platformInfo tone
    let formatted := formatForPlatform plainFmt htmlFmt contentWithTone outputFormat
    some (optimizeForTelegramLimits formatted)

/-- The non-whitespace content of a string. -/
def nonWs (s : PyStr) : PyStr := s.filter fun c => ¬ isPyWs c

/-! ### Claim C2 -/

/-- The C2 scenario body: 5000 `a` characters. -/
def summaryC2 : PyStr := List.replicate 5000 97

/-- The rendered messages of the C2 scenario (default preferences, so the
Telegram format; neutral tone; desktop device). -/
def renderC2 : List PyStr :=
  (renderNews (fun _ => []) id id (("Title").codes) summaryC2 (("tech").codes)
    [("ai").codes] (("http://e.com").codes) [] [] (("neutral").codes)).getD []

/-- The assembled message of the C2 scenario. -/
def assembledC2 : PyStr :=
  assembleMessage (fun _ => []) (("Title").codes) summaryC2 (("tech").codes)
    [("ai").codes] (("http://e.com").codes) [] [] (("neutral").codes)

/-- The emoji-and-category header part of the C2 assembled message. -/
def partHeadC2 : PyStr := ("📰 **Tech**").codes
/-- The bold title part of the C2 assembled message. -/
def partTitleC2 : PyStr := ("**Title**").codes
/-- The dynamic buttons block of the C2 scenario. -/
def buttonsC2 : PyStr := ("🔍 Похожие по #ai: `/search ai`\n🔖 В закладки: `/bookmark`\n📤 Поделиться: `/share`").codes
/-- Everything after the summary in the C2 assembled message: tags line,
source link and buttons (121 characters). -/
def tailC2 : PyStr := ("\n\n#ai\n\n🌐 [Читать оригинал](http://e.com)\n\n🔍 Похожие по #ai: `/search ai`\n🔖 В закладки: `/bookmark`\n📤 Поделиться: `/share`").codes
/-- The continuation marker appended by `_format_for_platform`. -/
def contMarkC2 : PyStr := ("... (continued)").codes
/-- The first chunk returned in the C2 scenario. -/
def chunk1C2 : PyStr := ("📰 **Tech**\n\n**Title**").codes
/-- The first 23 characters of the C2 assembled message (header, title and
separators). -/
def a23C2 : PyStr := partHeadC2 ++ ([10, 10] ++ (partTitleC2 ++ [10, 10]))
/-- The second chunk returned in the C2 scenario: the surviving 4067 body
characters plus the continuation marker. -/
def bigChunkC2 : PyStr := List.replicate 4067 97 ++ contMarkC2

lemma splitNl2_no_sep : ∀ (y : PyStr), 10 ∉ y → splitNl2 y = [y] := by
  intro y
  induction y with
  | nil => intro _; rfl
  | cons c y' ih =>
    intro h
    have hc : c ≠ 10 := fun hx => h (hx ▸ List.mem_cons_self c y')
    have hy' : 10 ∉ y' := fun hx => h (List.mem_cons_of_mem c hx)
    rcases y' with _ | ⟨c2, rest⟩
    · rfl
    · show splitNl2 (c :: c2 :: rest) = _
      rw [splitNl2, if_neg (fun hx => hc hx.1), ih hy']

lemma splitNl2_sep : ∀ (x rest : PyStr), 10 ∉ x →
    splitNl2 (x ++ 10 :: 10 :: rest) = x :: splitNl2 rest := by
  intro x
  induction x with
  | nil =>
    intro rest _
    show splitNl2 (10 :: 10 :: rest) = _
    rw [splitNl2, if_pos ⟨rfl, rfl⟩]
  | cons c x' ih =>
    intro rest h
    have hc : c ≠ 10 := fun hx => h (hx ▸ List.mem_cons_self c x')
    have hx' : 10 ∉ x' := fun hx => h (List.mem_cons_of_mem c hx)
    rcases hE : x' ++ 10 :: 10 :: rest with _ | ⟨c2, rest2⟩
    · simp at hE
    · show splitNl2 (c :: (x' ++ 10 :: 10 :: rest)) = _
      rw [hE, splitNl2, if_neg (fun hx => hc hx.1), ← hE, ih rest hx']

lemma pyStrip_sandwich (c1 c2 : Nat) (mid : PyStr) (h1 : isPyWs c1 = false)
    (h2 : isPyWs c2 = false) :
    pyStrip ((c1 :: (mid ++ [c2])) ++ [10, 10]) = c1 :: (mid ++ [c2]) := by
  have hrepr : ∀ m : PyStr,
      pyStrip m = List.rdropWhile isPyWs (List.dropWhile isPyWs m) := fun _ => rfl
  rw [hrepr]
  rw [List.cons_append, List.dropWhile_cons, if_neg (by simp [h1])]
  rw [show c1 :: ((mid ++ [c2]) ++ [10, 10]) = ((c1 :: (mid ++ [c2])) ++ [10]) ++ [10]
    from by simp]
  rw [List.rdropWhile_concat_pos isPyWs _ 10 (by decide)]
  rw [List.rdropWhile_concat_pos isPyWs _ 10 (by decide)]
  rw [show c1 :: (mid ++ [c2]) = (c1 :: mid) ++ [c2] from by simp]
  rw [List.rdropWhile_concat_neg isPyWs _ c2 (by simp [h2])]

lemma assembleMessage_C2 (s : PyStr) :
    assembleMessage (fun _ => []) (("Title").codes) s (("tech").codes)
      [("ai").codes] (("http://e.com").codes) [] [] (("neutral").codes) =
    partHeadC2 ++ (10 :: 10 :: (partTitleC2 ++ (10 :: 10 :: (s ++ tailC2)))) := by
  unfold assembleMessage
  dsimp only
  have hlen : ∀ t : PyStr, applyLengthOptimization t (determineDeviceType
      ((dget ([] : List (PyStr × PyStr)) (("user_agent").codes)).getD [])) = t := by
    intro t
    rw [show determineDeviceType ((dget ([] : List (PyStr × PyStr))
      (("user_agent").codes)).getD [] ) = DeviceType.desktop from rfl]
    simp [applyLengthOptimization]
  rw [hlen]
  rw [show createDynamicButtons [("ai").codes] = buttonsC2 from rfl]
  rw [show (if ([("ai").codes] : List PyStr) ≠ [] then
      List.intercalate [32] (List.map (fun t => 35 :: t) [("ai").codes]) else []) =
      ("#ai").codes from rfl]
  rw [show toneStyleOf (("neutral").codes) = ToneStyle.neutral from rfl]
  rw [show getAppropriateEmoji (("tech").codes) ToneStyle.neutral = ("📰").codes from rfl]
  rw [show pyTitle (("tech").codes) = ("Tech").codes from rfl]
  rw [if_pos (by decide : (("#ai").codes : PyStr) ≠ [])]
  rw [if_pos (by decide : (buttonsC2 : PyStr) ≠ [])]
  simp only [applyToneStyle]
  simp only [List.intercalate, List.intersperse, List.join]
  rw [show partHeadC2 = ("📰").codes ++ [32] ++ ("**").codes ++ ("Tech").codes ++
    ("**").codes from rfl]
  rw [show partTitleC2 = ("**").codes ++ ("Title").codes ++ ("**").codes from rfl]
  rw [show tailC2 = 10 :: 10 :: (("#ai").codes ++ (10 :: 10 ::
    (("🌐 [Читать оригинал](").codes ++ ("http://e.com").codes ++ [41] ++
      (10 :: 10 :: buttonsC2)))) from rfl]
  simp only [List.flatten_cons, List.flatten_nil, List.append_assoc, List.singleton_append,
    List.cons_append, List.nil_append, List.append_nil]

lemma assembledC2_eq :
    assembledC2 = partHeadC2 ++ (10 :: 10 :: (partTitleC2 ++ (10 :: 10 ::
      (summaryC2 ++ tailC2)))) := assembleMessage_C2 summaryC2

lemma assembledC2_regroup :
    assembledC2 = a23C2 ++ (summaryC2 ++ tailC2) := by
  rw [assembledC2_eq]
  simp [a23C2]

lemma assembledC2_length : assembledC2.length = 5144 := by
  rw [assembledC2_regroup]
  rw [List.length_append, List.length_append]
  rw [show a23C2.length = 23 from rfl, show tailC2.length = 121 from rfl]
  rw [show summaryC2.length = 5000 from by
    unfold summaryC2; rw [List.length_replicate]]

lemma truncatedC2_eq :
    assembledC2.take 4090 ++ ("... (continued)").codes = a23C2 ++ bigChunkC2 := by
  rw [assembledC2_regroup]
  rw [List.take_append_eq_append_take]
  rw [List.take_of_length_le (by rw [show a23C2.length = 23 from rfl]; omega)]
  rw [show a23C2.length = 23 from rfl]
  rw [show (4090 - 23 : Nat) = 4067 from rfl]
  rw [List.take_append_of_le_length (by
    rw [show summaryC2.length = 5000 from by unfold summaryC2; rw [List.length_replicate]]
    omega)]
  unfold summaryC2
  rw [List.take_replicate]
  rw [show min (4067 : Nat) 5000 = 4067 from rfl]
  rfl

lemma formattedC2_eq :
    formatForPlatform id id assembledC2 OutputFormat.telegram = a23C2 ++ bigChunkC2 := by
  unfold formatForPlatform
  rw [if_pos (by rw [assembledC2_length]; omega)]
  exact truncatedC2_eq

lemma bigChunkC2_cons :
    bigChunkC2 = 97 :: ((List.replicate 4066 97 ++ ("... (continued").codes) ++ [41]) := by
  unfold bigChunkC2
  rw [show (4067 : Nat) = 4066 + 1 from rfl, List.replicate_succ]
  rw [show contMarkC2 = ("... (continued").codes ++ [41] from rfl]
  rw [List.cons_append, ← List.append_assoc]

lemma bigChunkC2_length : bigChunkC2.length = 4082 := by
  unfold bigChunkC2
  rw [List.length_append, List.length_replicate, show contMarkC2.length = 15 from rfl]

lemma optimizeC2_eq :
    optimizeForTelegramLimits (a23C2 ++ bigChunkC2) = [chunk1C2, bigChunkC2] := by
  unfold optimizeForTelegramLimits
  rw [if_neg (by
    rw [List.length_append, show a23C2.length = 23 from rfl, bigChunkC2_length]
    omega)]
  rw [show a23C2 ++ bigChunkC2 = partHeadC2 ++ 10 :: 10 ::
    (partTitleC2 ++ 10 :: 10 :: bigChunkC2) from by simp [a23C2]]
  rw [splitNl2_sep partHeadC2 _ (by decide)]
  rw [splitNl2_sep partTitleC2 _ (by decide)]
  rw [splitNl2_no_sep bigChunkC2 (by
    intro hmem
    unfold bigChunkC2 at hmem
    rcases List.mem_append.1 hmem with h | h
    · exact absurd (List.eq_of_mem_replicate h) (by decide)
    · exact absurd h (by decide))]
  show telegramSplitLoop [partHeadC2, partTitleC2, bigChunkC2] [] = _
  rw [telegramSplitLoop]
  rw [if_pos (by decide)]
  rw [telegramSplitLoop]
  rw [if_pos (by decide)]
  rw [telegramSplitLoop]
  split_ifs with hbig hne
  · exfalso
    rw [bigChunkC2_length] at hbig
    rw [show List.length ([] ++ partHeadC2 ++ [10, 10] ++ partTitleC2 ++ [10, 10] :
      PyStr) = 23 from by decide] at hbig
    omega
  · rw [show pyStrip ([] ++ partHeadC2 ++ [10, 10] ++ partTitleC2 ++ [10, 10]) = chunk1C2
      from by decide]
    rw [telegramSplitLoop]
    rw [bigChunkC2_cons]
    rw [pyStrip_sandwich 97 41 _ (by decide) (by decide)]
    rw [if_pos (List.cons_ne_nil 97 _)]
  · exfalso
    simp at hne

lemma nonWs_append (a b : PyStr) : nonWs (a ++ b) = nonWs a ++ nonWs b := by
  unfold nonWs
  rw [List.filter_append]

lemma nonWs_summaryC2 : nonWs summaryC2 = List.replicate 5000 97 := by
  unfold summaryC2 nonWs
  apply List.filter_eq_self.mpr
  intro a ha
  rw [List.eq_of_mem_replicate ha]
  decide

lemma nonWs_replicateA : nonWs (List.replicate 4067 97) = List.replicate 4067 97 := by
  unfold nonWs
  apply List.filter_eq_self.mpr
  intro a ha
  rw [List.eq_of_mem_replicate ha]
  decide

lemma nonWs_bigChunkC2 :
    nonWs bigChunkC2 = List.replicate 4067 97 ++ ("...(continued)").codes := by
  unfold bigChunkC2
  rw [nonWs_append, nonWs_replicateA]
  rw [show nonWs contMarkC2 = ("...(continued)").codes from by decide]

lemma renderC2_eq : renderC2 = [chunk1C2, bigChunkC2] := by
  unfold renderC2 renderNews
  rw [show outputFormatOf ((dget ([] : List (PyStr × PyStr)) (("format").codes)).getD
    (("telegram").codes)) = some OutputFormat.telegram from rfl]
  dsimp only
  rw [show assembleMessage (fun _ => []) (("Title").codes) summaryC2 (("tech").codes)
    [("ai").codes] (("http://e.com").codes) [] [] (("neutral").codes) = assembledC2
    from rfl]
  rw [formattedC2_eq, optimizeC2_eq]
  rfl

lemma flattenC2 : List.flatten [chunk1C2, bigChunkC2] = chunk1C2 ++ bigChunkC2 := by
  simp only [List.flatten_cons, List.flatten_nil, List.append_nil]

lemma nonWs_renderC2_len : (nonWs (List.flatten [chunk1C2, bigChunkC2])).length = 4099 := by
  rw [flattenC2, nonWs_append, List.length_append]
  rw [show (nonWs chunk1C2).length = 18 from by decide]
  rw [nonWs_bigChunkC2, List.length_append, List.length_replicate]
  rw [show (("...(continued)").codes : PyStr).length = 14 from by decide]

lemma nonWs_assembledC2_len : 4100 ≤ (nonWs assembledC2).length := by
  rw [assembledC2_regroup, nonWs_append, nonWs_append]
  rw [List.length_append, List.length_append]
  rw [nonWs_summaryC2, List.length_replicate]
  omega

/-- C2 is false as stated: in the C2 scenario (a 5000-character body, so an
assembled message of 5144 characters, above the 4096 limit), the rendered
chunks do NOT reproduce all non-whitespace content of the assembled message:
`_format_for_platform` truncates to the first 4090 characters plus
"... (continued)" before `_optimize_for_telegram_limits` ever splits, so 933
non-whitespace characters of the body are lost. -/
theorem render_split_claim_false :
    4096 < assembledC2.length ∧ nonWs renderC2.flatten ≠ nonWs assembledC2 := by
  constructor
  · rw [assembledC2_length]
    omega
  · rw [renderC2_eq]
    intro h
    have hlen := congrArg List.length h
    rw [nonWs_renderC2_len] at hlen
    have := nonWs_assembledC2_len
    omega

/-- C2 (amended): in the C2 scenario the agent returns exactly two chunks,
each at most 4096 characters, and concatenating them in order reproduces the
non-whitespace content of the TRUNCATED message — the first 4090 characters
of the assembled message followed by the "... (continued)" marker — rather
than of the full assembled message. -/
theorem render_split_truncated :
    renderC2 = [chunk1C2, bigChunkC2] ∧
    (∀ c ∈ renderC2, c.length ≤ 4096) ∧
    nonWs renderC2.flatten =
      nonWs (assembledC2.take 4090 ++ ("... (continued)").codes) := by
  refine ⟨renderC2_eq, ?_, ?_⟩
  · intro c hc
    rw [renderC2_eq] at hc
    rcases List.mem_cons.1 hc with h | h
    · rw [h]
      decide
    · rcases List.mem_cons.1 h with h2 | h2
      · rw [h2, bigChunkC2_length]
        omega
      · exact absurd h2 (List.not_mem_nil c)
  · rw [renderC2_eq, truncatedC2_eq, flattenC2, nonWs_append, nonWs_append]
    congr 1

end NewsHive
